import Mathlib

/-!
# Kibana buildpack: template selection and dependency-version resolution

A shallow embedding of the decision procedures of the supply phase
(`src/kibana/config/config.go`, `src/kibana/supply/supply.go`,
`src/kibana/supply/supply_helper.go`).

Conventions of the embedding.

* Go `string` is `String`; Go slices are `List`.
* A Go `map[string]V` is an association list.  For `VcapServices` the list
  order stands for the order in which `range` visits the keys, which Go leaves
  unspecified: every statement below holds for every list, hence for every
  visiting order.  `WithTags` and `UserProvided` range over the map one after
  the other; the auto branch uses the two lists they return only through their
  lengths and, where one instance is left, through that instance, so that it
  does not matter that one list stands for both visits.
* A Go function returning `error` while mutating the receiver is a function
  into `Supplier × Option String`: the state it leaves behind and the message
  of the returned error (`none` for `nil`).
* Calls to the logger change nothing that is modelled and are left out.
-/

set_option autoImplicit false

namespace Kibana

deriving instance DecidableEq for Except

/-! ## Strings (Go package `strings`) -/

/-- Case folding of one character, restricted to the ASCII letters. -/
def foldChar (c : Char) : Char :=
  if 65 ≤ c.toNat ∧ c.toNat ≤ 90 then Char.ofNat (c.toNat + 32) else c

/-- The library function `strings.EqualFold`: equality of two strings under
case folding.  The folding modelled is the one of the ASCII letters, on which
it agrees with Go; no general statement below unfolds this definition, so each
of them holds for whatever folding relation is put in its place. -/
def EqualFold (s t : String) : Bool :=
  s.data.map foldChar == t.data.map foldChar

/-- The library function `strings.Trim(s, " ")`: `s` without its leading and
trailing blanks. -/
def Trim (s : String) : String :=
  ⟨((s.data.dropWhile (· == ' ')).reverse.dropWhile (· == ' ')).reverse⟩

/-- The segments of `strings.Split(s, ".")` on the characters of `s`: always at
least one segment, one more than there are dots. -/
def splitDots : List Char → List (List Char)
  | [] => [[]]
  | c :: cs =>
    if c = '.' then [] :: splitDots cs
    else
      match splitDots cs with
      | [] => [[c]]
      | seg :: segs => (c :: seg) :: segs

/-- The library function `strings.Split(s, ".")`. -/
def Split (s : String) : List String :=
  (splitDots s.data).map String.mk

/-! ## Data model (`config.go`, `supply.go`) -/

/-- One entry of `defaults/templates/templates.yml` (`config.Template`; the
field `Type` is named `TemplateType` here). -/
structure Template where
  Name : String := ""
  TemplateType : String := ""
  IsDefault : Bool := false
  IsFallback : Bool := false
  Tags : List String := []
  Plugins : List String := []
  ServiceInstanceName : String := ""
deriving DecidableEq, Repr

/-- One explicitly configured template of the Kibana file
(`config.ConfigTemplate`). -/
structure ConfigTemplate where
  Name : String := ""
  ServiceInstanceName : String := ""
deriving DecidableEq, Repr

/-- The buildpack section of the Kibana file (`config.Buildpack`). -/
structure Buildpack where
  LogLevel : String := ""
  NoCache : Bool := false
  DoSleepCommand : Bool := false
deriving DecidableEq, Repr

/-- The parsed Kibana file (`config.KibanaConfig`), with the fields the supply
phase decides on. -/
structure KibanaConfig where
  Version : String := ""
  Plugins : List String := []
  Certificates : List String := []
  ConfigTemplates : List ConfigTemplate := []
  EnableServiceFallback : Bool := false
  Buildpack : Buildpack := {}
deriving DecidableEq, Repr

/-- The parsed templates file (`config.TemplatesConfig`). -/
structure TemplatesConfig where
  Templates : List Template := []
deriving DecidableEq, Repr

/-- One bound service instance (`config.VcapService`); the credentials are an
uninterpreted payload. -/
structure VcapService where
  Name : String := ""
  Label : String := ""
  Tags : List String := []
  Plan : String := ""
  Credentials : List (String × String) := []
deriving DecidableEq, Repr

/-- The bound services by service label (`config.VcapServices`, a Go map), in
the order in which `range` visits the labels. -/
abbrev VcapServices := List (String × List VcapService)

/-- A dependency of the build (`supply.Dependency`). -/
structure Dependency where
  Name : String := ""
  DirName : String := ""
  Version : String := ""
  VersionParts : Int := 0
  ConfigVersion : String := ""
  RuntimeLocation : String := ""
  StagingLocation : String := ""
deriving DecidableEq, Repr

/-- The two queries of the `Manifest` interface that version resolution uses.
`DefaultVersion` returns a `libbuildpack.Dependency` of which only the version
is read. -/
structure Manifest where
  AllDependencyVersions : String → List String := fun _ => []
  DefaultVersion : String → Except String String := fun _ => Except.error "no default version"

/-- The directories answered by the `Stager` interface. -/
structure Stager where
  BuildDir : String := ""
  CacheDir : String := ""
  DepDir : String := ""
  DepsIdx : String := ""
deriving DecidableEq, Repr

/-- The state of the supply phase (`supply.Supplier`). -/
structure Supplier where
  Stager : Stager := {}
  Manifest : Manifest := {}
  BuildpackDir : String := ""
  CachedDeps : List (String × String) := []
  DepCacheDir : String := ""
  GTE : Dependency := {}
  Jq : Dependency := {}
  Kibana : Dependency := {}
  KibanaPlugins : Dependency := {}
  XPack : Dependency := {}
  KibanaConfig : KibanaConfig := {}
  TemplatesConfig : TemplatesConfig := {}
  VcapServices : VcapServices := []
  ConfigFilesExists : Bool := false
  TemplatesToInstall : List Template := []
  PluginsToInstall : List (String × String) := []

/-- Assignment `m[k] = v` on a Go map kept as an association list. -/
def mapSet (m : List (String × String)) (k v : String) : List (String × String) :=
  match m with
  | [] => [(k, v)]
  | (k0, v0) :: rest => if k0 = k then (k, v) :: rest else (k0, v0) :: mapSet rest k v

/-! ## Service matching (`config.go`) -/

/-- The innermost loop of `WithTags`, `for _, t := range tags`: whether some
required tag folds to the instance tag `st` (the value of `found`). -/
def tagFound (tags : List String) (st : String) : Bool :=
  match tags with
  | [] => false
  | t :: ts => if EqualFold t st then true else tagFound ts st

/-- The loop of `WithTags` over the tags of one instance: the instance is
appended at the first of its tags that is found, and the loop stops there. -/
def appendIfTagged (tags : List String) (service_instance : VcapService) :
    List String → List VcapService → List VcapService
  | [], result => result
  | st :: sts, result =>
    if tagFound tags st then result ++ [service_instance]
    else appendIfTagged tags service_instance sts result

/-- The loop of `WithTags` over the instances of one service label. -/
def withTagsInstances (tags : List String) :
    List VcapService → List VcapService → List VcapService
  | [], result => result
  | service_instance :: rest, result =>
    withTagsInstances tags rest
      (appendIfTagged tags service_instance service_instance.Tags result)

/-- The method `VcapServices.WithTags`. -/
def WithTags (s : VcapServices) (tags : List String) : List VcapService :=
  s.foldl (fun result entry => withTagsInstances tags entry.2 result) []

/-- The inner loop of `UserProvided`: every instance of the label is appended. -/
def appendInstances : List VcapService → List VcapService → List VcapService
  | [], result => result
  | service_instance :: rest, result => appendInstances rest (result ++ [service_instance])

/-- The method `VcapServices.UserProvided`. -/
def UserProvided (s : VcapServices) : List VcapService :=
  s.foldl (fun result entry =>
    if entry.1 = "user-provided" then appendInstances entry.2 result else result) []

/-! ## Template selection (`supply.go`, `InstallTemplates`) -/

/-- A `for ... range` loop whose body may return an error: the loop stops at
the first error and keeps the state reached so far. -/
def forEach {α : Type} (body : Supplier → α → Supplier × Option String) :
    Supplier → List α → Supplier × Option String
  | gs, [] => (gs, none)
  | gs, x :: xs =>
    match body gs x with
    | (gs1, some err) => (gs1, some err)
    | (gs1, none) => forEach body gs1 xs

/-- The statement `gs.TemplatesToInstall = append(gs.TemplatesToInstall, ti)`. -/
def appendTemplate (gs : Supplier) (ti : Template) : Supplier :=
  { gs with TemplatesToInstall := gs.TemplatesToInstall ++ [ti] }

/-- The list `vcapServices` that the auto branch builds for a template with
required tags: the tagged instances followed by the user-provided ones. -/
def candidateServices (gs : Supplier) (t : Template) : List VcapService :=
  let vcapServices : List VcapService := []
  let vcapServicesWithTag := WithTags gs.VcapServices t.Tags
  let vcapServicesUserProvided := UserProvided gs.VcapServices
  let vcapServices :=
    if vcapServicesWithTag.length > 0 then vcapServices ++ vcapServicesWithTag else vcapServices
  if vcapServicesUserProvided.length > 0 then vcapServices ++ vcapServicesUserProvided
  else vcapServices

/-- The body of the loop of the auto branch (`supply.go`, lines 530-569), for
one known template `t`.  The access `vcapServices[0]` is made where the list
has exactly one element; the case of an empty list there cannot occur. -/
def installDefaultTemplate (gs : Supplier) (t : Template) : Supplier × Option String :=
  if t.IsDefault then
    if t.Tags.length > 0 then
      let vcapServices := candidateServices gs t
      if vcapServices.length = 0 then
        if gs.KibanaConfig.EnableServiceFallback then
          (appendTemplate gs { t with ServiceInstanceName := "" }, none)
        else
          (gs, some "no service found for template")
      else if vcapServices.length > 1 then
        (gs, some "more than one service found for template")
      else
        match vcapServices with
        | v :: _ => (appendTemplate gs { t with ServiceInstanceName := v.Name }, none)
        | [] => (gs, some "index out of range")
    else
      (appendTemplate gs { t with ServiceInstanceName := "" }, none)
  else
    (gs, none)

/-- The inner loop of the explicit branch (`supply.go`, lines 582-601): the
search of the known templates for `templateName`; it ends at the first template
of that name. -/
def installNamedTemplate (gs : Supplier) (ct : ConfigTemplate) (templateName : String) :
    List Template → Supplier × Option String
  | [] => (gs, none)
  | t :: ts =>
    if templateName = t.Name then
      let serviceInstanceName := Trim ct.ServiceInstanceName
      if serviceInstanceName.length = 0 ∧ t.Tags.length > 0 then
        (gs, some "no service instance name defined for template in Kibana file")
      else
        let ti :=
          if serviceInstanceName.length > 0 ∧ t.Tags.length = 0 then t
          else { t with ServiceInstanceName := serviceInstanceName }
        (appendTemplate gs ti, none)
    else
      installNamedTemplate gs ct templateName ts

/-- The body of the loop of the explicit branch (`supply.go`, lines 575-605),
for one configured template `ct`. -/
def installConfigTemplate (gs : Supplier) (ct : ConfigTemplate) : Supplier × Option String :=
  let templateName := Trim ct.Name
  if templateName.length = 0 then (gs, none)
  else installNamedTemplate gs ct templateName gs.TemplatesConfig.Templates

/-- Whether `InstallTemplates` takes the auto branch. -/
def autoMode (gs : Supplier) : Bool :=
  !gs.ConfigFilesExists && gs.KibanaConfig.ConfigTemplates.length == 0

/-- The selection pass of `InstallTemplates` (`supply.go`, lines 526-606): it
fills `TemplatesToInstall` or returns an error. -/
def selectTemplates (gs : Supplier) : Supplier × Option String :=
  if autoMode gs then
    forEach installDefaultTemplate gs gs.TemplatesConfig.Templates
  else
    forEach installConfigTemplate gs gs.KibanaConfig.ConfigTemplates

/-- The loop that renders the selected templates (`supply.go`, lines 609-625);
`gte` is the outcome of the external command for a template, `none` when it
succeeds. -/
def renderTemplates (gte : Template → Option String) : List Template → Option String
  | [] => none
  | ti :: rest =>
    match gte ti with
    | some err => some err
    | none => renderTemplates gte rest

/-- The loop that records the plugins of the selected templates (`supply.go`,
lines 628-632). -/
def collectPlugins (templates : List Template) (plugins : List (String × String)) :
    List (String × String) :=
  templates.foldl (fun m ti => ti.Plugins.foldl (fun m1 p => mapSet m1 p "") m) plugins

/-- The method `Supplier.InstallTemplates`. -/
def InstallTemplates (gte : Template → Option String) (gs : Supplier) :
    Supplier × Option String :=
  match selectTemplates gs with
  | (gs1, some err) => (gs1, some err)
  | (gs1, none) =>
    match renderTemplates gte gs1.TemplatesToInstall with
    | some err => (gs1, some err)
    | none =>
      ({ gs1 with PluginsToInstall := collectPlugins gs1.TemplatesToInstall gs1.PluginsToInstall },
        none)

/-! ## Version resolution (`supply_helper.go`) -/

/-- Modelled from the spec: the number a version segment stands for, used to
tell the "highest" version; a segment that is not a decimal numeral counts as
`0`. -/
def segmentNumber (seg : String) : Nat :=
  if seg.data.all Char.isDigit then seg.data.foldl (fun n c => 10 * n + (c.toNat - 48)) 0 else 0

/-- Modelled from the spec: the order behind "highest version"; the segments
are compared as numbers, from the left, and a version is lower than one that
continues it. -/
def segmentsLt : List Nat → List Nat → Bool
  | [], [] => false
  | [], _ :: _ => true
  | _ :: _, [] => false
  | a :: as, b :: bs => if a < b then true else if b < a then false else segmentsLt as bs

/-- Modelled from the spec: whether the version `a` is lower than `b`. -/
def versionLt (a b : String) : Bool :=
  segmentsLt ((Split a).map segmentNumber) ((Split b).map segmentNumber)

/-- Modelled from the spec: the prefix a pattern stands for, its segments
before the first wildcard `x`. -/
def patternPrefix (pattern : String) : List String :=
  (Split pattern).takeWhile (fun seg => seg != "x")

/-- Modelled from the spec: whether a pattern is "wildcarded", that is, has a
wildcard segment `x`. -/
def hasWildcard (pattern : String) : Bool :=
  (Split pattern).any (fun seg => seg == "x")

/-- Modelled from the spec: a version satisfies a wildcarded pattern
("satisfying-prefix") when the segments of the pattern before its first
wildcard are the leading segments of the version; a pattern without a wildcard
leaves no segment open and is satisfied by the version that is the pattern
itself ("an already-fully-qualified version present verbatim" is returned
"unchanged"). -/
def satisfiesPattern (pattern version : String) : Bool :=
  if hasWildcard pattern then (patternPrefix pattern).isPrefixOf (Split version)
  else version == pattern

/-- Modelled from the spec: the highest of a list of versions, the earliest
one among equals. -/
def highestVersion (versions : List String) : Option String :=
  versions.foldl (fun best v =>
    match best with
    | none => some v
    | some b => if versionLt b v then some v else some b) none

/-- Modelled from the spec: the function `libbuildpack.FindMatchingVersion` of
the vendored library, which is not among the sources.  The spec gives it
"highest-version-satisfying-prefix semantics", asks that "the match must be
unambiguous given the available set" and lets it fail "when no available
version satisfies the pattern": of the available versions that satisfy the
pattern the highest is returned, provided every other one of them is lower. -/
def FindMatchingVersion (pattern : String) (versions : List String) : Except String String :=
  match highestVersion (versions.filter (satisfiesPattern pattern)) with
  | some v =>
    if (versions.filter (satisfiesPattern pattern)).all (fun c => c == v || versionLt c v) then
      Except.ok v
    else Except.error ("ambiguous match for " ++ pattern)
  | none => Except.error ("no match found for " ++ pattern)

/-- The pattern that `parseDependencyVersion` hands to the matcher
(`supply_helper.go`, lines 130-132): the version, with `.x` appended once when
it has fewer segments than the dependency asks for. -/
def wildcardedVersion (dependency : Dependency) (partialDependencyVersion : String) : String :=
  if ((Split partialDependencyVersion).length : Int) < dependency.VersionParts then
    partialDependencyVersion ++ ".x"
  else
    partialDependencyVersion

/-- The method `Supplier.parseDependencyVersion`. -/
def parseDependencyVersion (gs : Supplier) (dependency : Dependency)
    (partialDependencyVersion : String) : Except String String :=
  let existingVersions := gs.Manifest.AllDependencyVersions dependency.Name
  match FindMatchingVersion (wildcardedVersion dependency partialDependencyVersion)
      existingVersions with
  | Except.error err => Except.error err
  | Except.ok expandedVer => Except.ok expandedVer

/-- The method `Supplier.SelectDependencyVersion`. -/
def SelectDependencyVersion (gs : Supplier) (dependency : Dependency) : Except String String :=
  if dependency.ConfigVersion = "" then
    match gs.Manifest.DefaultVersion dependency.Name with
    | Except.error err => Except.error err
    | Except.ok defaultDependencyVersion =>
      parseDependencyVersion gs dependency defaultDependencyVersion
  else
    parseDependencyVersion gs dependency dependency.ConfigVersion

/-! ## Notions of the specification -/

/-- An instance is tagged-matching for the required `tags` when one of its tags
equals one of them, ignoring letter case. -/
def taggedMatching (tags : List String) (inst : VcapService) : Bool :=
  inst.Tags.any (fun st => tags.any (fun t => EqualFold t st))

/-- What the specification asks of `WithTags`: the instances that are
tagged-matching, label by label, in the order of the input. -/
def taggedInstances (s : VcapServices) (tags : List String) : List VcapService :=
  s.flatMap (fun entry => entry.2.filter (taggedMatching tags))

/-- The bound service instances, each with the label it is listed under. -/
def boundInstances (s : VcapServices) : List (String × VcapService) :=
  s.flatMap (fun entry => entry.2.map (fun inst => (entry.1, inst)))

/-- An instance listed under the label `user-provided`. -/
def isUserProvided (li : String × VcapService) : Bool :=
  li.1 == "user-provided"

/-- A candidate for a template with the required `tags`: an instance that is
tagged-matching or listed under `user-provided`. -/
def isCandidate (tags : List String) (li : String × VcapService) : Bool :=
  taggedMatching tags li.2 || isUserProvided li

/-- The state `gs` with `TemplatesToInstall` replaced. -/
def withTemplates (gs : Supplier) (templates : List Template) : Supplier :=
  { gs with TemplatesToInstall := templates }

/-- The first known template of a given name. -/
def firstNamed (templateName : String) (templates : List Template) : Option Template :=
  templates.find? (fun t => decide (templateName = t.Name))

/-- A template with its service-instance name left out of account. -/
def unbound (t : Template) : Template :=
  { t with ServiceInstanceName := "" }

/-- A loop over `xs` that selects templates, as a function of what its body
selects for each element: the templates selected up to the first error, and
that error. -/
def chooseAll {α : Type} (choice : α → List Template × Option String) :
    List α → List Template × Option String
  | [] => ([], none)
  | x :: xs =>
    match (choice x).2 with
    | some err => ((choice x).1, some err)
    | none => ((choice x).1 ++ (chooseAll choice xs).1, (chooseAll choice xs).2)

/-- What the body of the auto branch selects for a known template, and the
error it returns. -/
def defaultChoice (gs : Supplier) (t : Template) : List Template × Option String :=
  ((installDefaultTemplate (withTemplates gs []) t).1.TemplatesToInstall,
    (installDefaultTemplate (withTemplates gs []) t).2)

/-- What the body of the explicit branch selects for a configured template,
and the error it returns. -/
def configChoice (gs : Supplier) (ct : ConfigTemplate) : List Template × Option String :=
  ((installConfigTemplate (withTemplates gs []) ct).1.TemplatesToInstall,
    (installConfigTemplate (withTemplates gs []) ct).2)


/-! ## Example data -/

/-- A default template that asks for a service tagged `elasticsearch`. -/
def elasticTemplate : Template :=
  { Name := "elasticsearch", IsDefault := true, Tags := ["elasticsearch"] }

/-- The same template, flagged as a fallback template. -/
def elasticFallbackTemplate : Template :=
  { Name := "elasticsearch", IsDefault := true, IsFallback := true, Tags := ["elasticsearch"] }

/-- A default template that asks for no service. -/
def plainTemplate : Template :=
  { Name := "kibana", IsDefault := true }

/-- A user-provided service instance that carries the tag `elasticsearch`. -/
def taggedUserProvided : VcapService :=
  { Name := "my-es", Label := "user-provided", Tags := ["elasticsearch"] }

/-- A build with the one template `elasticTemplate` and, as only bound
service, a user-provided instance that carries the required tag. -/
def buildWithTaggedUserProvided : Supplier :=
  { TemplatesConfig := { Templates := [elasticTemplate] },
    VcapServices := [("user-provided", [taggedUserProvided])] }

/-- A build with a fallback template, no bound service, and service fallback
not enabled in the Kibana file. -/
def buildFallbackTemplateOnly : Supplier :=
  { TemplatesConfig := { Templates := [elasticFallbackTemplate] } }

/-- A build with a template that is no fallback template, no bound service, and
service fallback enabled in the Kibana file. -/
def buildFallbackEnabled : Supplier :=
  { TemplatesConfig := { Templates := [elasticTemplate] },
    KibanaConfig := { EnableServiceFallback := true } }

/-- A build with two bound instances of a service tagged `ELASTICSEARCH`. -/
def buildWithTwoTagged : Supplier :=
  { TemplatesConfig := { Templates := [plainTemplate, elasticTemplate] },
    VcapServices :=
      [("elasticsearch",
        [{ Name := "es-a", Label := "elasticsearch", Tags := ["search", "ELASTICSEARCH"] },
         { Name := "es-b", Label := "elasticsearch", Tags := ["Elasticsearch"] }]),
       ("redis", [{ Name := "cache", Label := "redis", Tags := ["redis"] }])] }

/-- A build with one tagged instance among unrelated ones. -/
def buildWithOneTagged : Supplier :=
  { TemplatesConfig :=
      { Templates := [plainTemplate, { Name := "extra", Tags := ["redis"] }, elasticTemplate] },
    VcapServices :=
      [("elasticsearch",
        [{ Name := "es-a", Label := "elasticsearch", Tags := ["search", "ELASTICSEARCH"] }]),
       ("mysql", [{ Name := "db", Label := "mysql", Tags := ["sql"] }])] }


/-- The known template that a configured template names: the first known
template whose name is that of the entry without the blanks around it; none
when the name of the entry is blank. -/
def namedTemplate (gs : Supplier) (ct : ConfigTemplate) : Option Template :=
  if Trim ct.Name = "" then none else firstNamed (Trim ct.Name) gs.TemplatesConfig.Templates

/-- The template that the explicit branch selects for an entry that names the
known template `t` and supplies a service-instance name where one is needed. -/
def boundTemplate (ct : ConfigTemplate) (t : Template) : Template :=
  if Trim ct.ServiceInstanceName ≠ "" ∧ t.Tags = [] then t
  else { t with ServiceInstanceName := Trim ct.ServiceInstanceName }

/-- The state `gs` with other bound services. -/
def withServices (gs : Supplier) (s : VcapServices) : Supplier :=
  { gs with VcapServices := s }


/-- A default template that no configured template names. -/
def monitoringTemplate : Template :=
  { Name := "monitoring", IsDefault := true }

/-- The entry that names the template `elasticsearch` and supplies a
service-instance name made of one blank. -/
def blankServiceEntry : ConfigTemplate :=
  { Name := "elasticsearch", ServiceInstanceName := " " }

/-- The entry that names the template `elasticsearch` and supplies the
service-instance name `my-es` with a blank on either side. -/
def paddedServiceEntry : ConfigTemplate :=
  { Name := "elasticsearch", ServiceInstanceName := " my-es " }

/-- An explicit build whose only entry supplies a blank service-instance name. -/
def buildExplicitBlank : Supplier :=
  { TemplatesConfig := { Templates := [elasticTemplate] },
    KibanaConfig := { ConfigTemplates := [blankServiceEntry] } }

/-- An explicit build whose only entry supplies a padded service-instance name. -/
def buildExplicitPadded : Supplier :=
  { TemplatesConfig := { Templates := [elasticTemplate] },
    KibanaConfig := { ConfigTemplates := [paddedServiceEntry] } }

/-- An explicit build with three entries: one for a template without tags, with
a service-instance name that is of no use; one that names no known template;
one for the template `elasticsearch`. -/
def buildExplicit : Supplier :=
  { TemplatesConfig := { Templates := [plainTemplate, monitoringTemplate, elasticTemplate] },
    KibanaConfig :=
      { ConfigTemplates :=
          [{ Name := " kibana", ServiceInstanceName := "unused" },
           { Name := "curator" },
           { Name := "elasticsearch", ServiceInstanceName := "my-es" }] } }


/-- The dependency `kibana`, resolved to three version parts. -/
def kibanaDependency : Dependency :=
  { Name := "kibana", VersionParts := 3 }

/-- A build whose manifest lists the versions `6.2.1`, `6.2.2` and `5.9.0` of
every dependency. -/
def buildWithManifest : Supplier :=
  { Manifest := { AllDependencyVersions := fun _ => ["6.2.1", "6.2.2", "5.9.0"] } }

/-- A build whose manifest lists a version next to a longer version that
starts with it, and a higher one. -/
def buildWithMixedManifest : Supplier :=
  { Manifest := { AllDependencyVersions := fun _ => ["6.2.1", "6.2.1.1", "6.2.2"] } }


/-! ## Paths and the file system (Go packages `strings`, `path/filepath`, `os`) -/

/-- The library function `strings.HasPrefix`. -/
def HasPrefix (s pre : String) : Bool :=
  pre.data.isPrefixOf s.data

/-- The library function `strings.HasSuffix`. -/
def HasSuffix (s suffix : String) : Bool :=
  suffix.data.isSuffixOf s.data

/-- The pieces of a path between its separators `/`: always at least one piece,
one more than there are separators. -/
def splitSlash : List Char → List (List Char)
  | [] => [[]]
  | c :: cs =>
    if c = '/' then [] :: splitSlash cs
    else
      match splitSlash cs with
      | [] => [[c]]
      | seg :: segs => (c :: seg) :: segs

/-- The components of a path, joined with the separator: the library function
`strings.Join(elems, "/")`. -/
def joinSlash : List String → String
  | [] => ""
  | [c] => c
  | c :: cs => c ++ "/" ++ joinSlash cs

/-- The pass of `filepath.Clean` over the components of a path, with `out` the
components kept so far: empty components and `.` are dropped, `..` takes away
the component before it, is dropped at the root, and is kept at the head of a
path that is not rooted. -/
def cleanComponents (rooted : Bool) : List String → List String → List String
  | [], out => out
  | c :: cs, out =>
    if c = "" ∨ c = "." then cleanComponents rooted cs out
    else if c = ".." then
      match out.getLast? with
      | some top =>
        if top = ".." then cleanComponents rooted cs (out ++ [".."])
        else cleanComponents rooted cs out.dropLast
      | none =>
        if rooted then cleanComponents rooted cs out
        else cleanComponents rooted cs (out ++ [".."])
    else cleanComponents rooted cs (out ++ [c])

/-- Whether a path starts at the root. -/
def isRooted (path : String) : Bool :=
  path.data.head? == some '/'

/-- The library function `filepath.Clean`, for the separator `/`. -/
def Clean (path : String) : String :=
  if path = "" then "."
  else
    let out := cleanComponents (isRooted path) ((splitSlash path.data).map String.mk) []
    if isRooted path then "/" ++ joinSlash out
    else if out = [] then "."
    else joinSlash out

/-- The library function `filepath.Join`: the elements from the first one that
is not empty are joined with `/`, and the result is cleaned; without such an
element the result is empty. -/
def Join (elem : List String) : String :=
  match elem.dropWhile (fun e => e == "") with
  | [] => ""
  | rest => Clean (joinSlash rest)

/-- The file system as far as the dependency cache goes: the paths that exist,
and, for the record, the paths that `os.RemoveAll` has been called with, in the
order of the calls. -/
structure FileSystem where
  paths : List String := []
  removeCalls : List String := []
deriving DecidableEq, Repr

/-- The library function `os.RemoveAll`: the path and all that is below it is
gone afterwards, when the removal succeeds; `removable` tells for which paths it
does.  The callers in this repository drop the error it returns. -/
def RemoveAll (removable : String → Bool) (fs : FileSystem) (path : String) : FileSystem :=
  { paths :=
      if removable path then
        fs.paths.filter (fun p => !(p == path || HasPrefix p (path ++ "/")))
      else fs.paths,
    removeCalls := fs.removeCalls ++ [path] }

/-- A lookup `m[k]` with the comma-ok form, on a Go map kept as an association
list. -/
def mapGet (m : List (String × String)) (k : String) : Option String :=
  match m with
  | [] => none
  | (k0, v0) :: rest => if k0 = k then some v0 else mapGet rest k

/-! ## Dependencies and their cache (`supply_helper.go`) -/

/-- The method `Supplier.EvalRuntimeLocation`. -/
def EvalRuntimeLocation (gs : Supplier) (dependency : Dependency) : String :=
  Join [gs.Stager.DepsIdx, dependency.DirName]

/-- The method `Supplier.EvalStagingLocation`. -/
def EvalStagingLocation (gs : Supplier) (dependency : Dependency) : String :=
  Join [gs.Stager.DepDir, dependency.DirName]

/-- The method `Supplier.NewDependency`: the dependency, and the error of the
version resolution when it fails. -/
def NewDependency (gs : Supplier) (name : String) (versionParts : Int) (configVersion : String) :
    Dependency × Option String :=
  let dependency : Dependency :=
    { Name := name, VersionParts := versionParts, ConfigVersion := configVersion }
  match SelectDependencyVersion gs dependency with
  | Except.error err => (dependency, some err)
  | Except.ok parsedVersion =>
    let dependency := { dependency with Version := parsedVersion }
    let dependency := { dependency with DirName := dependency.Name ++ "-" ++ dependency.Version }
    let dependency := { dependency with RuntimeLocation := EvalRuntimeLocation gs dependency }
    let dependency := { dependency with StagingLocation := EvalStagingLocation gs dependency }
    (dependency, none)

/-- The loop of `InstallDependency` over the keys of `CachedDeps`
(`supply_helper.go`, lines 78-84): every key other than the directory name of
the dependency that starts with its name and a dash is marked `deleted` and
removed from the cache directory. -/
def removeOtherVersions (removable : String → Bool) (depCacheDir : String)
    (dependency : Dependency) :
    List String → List (String × String) × FileSystem → List (String × String) × FileSystem
  | [], state => state
  | cachedDep :: rest, (cachedDeps, fs) =>
    if cachedDep ≠ dependency.DirName ∧ HasPrefix cachedDep (dependency.Name ++ "-") then
      removeOtherVersions removable depCacheDir dependency rest
        (mapSet cachedDeps cachedDep "deleted",
          RemoveAll removable fs (Join [depCacheDir, cachedDep]))
    else
      removeOtherVersions removable depCacheDir dependency rest (cachedDeps, fs)

/-- The method `Supplier.InstallDependency`.  `installWithCache` stands for the
method `InstallDependencyWithCache` of the manifest, called with the name and
the version of the dependency, its slot in the cache and its staging location:
the paths that exist after it, given those that exist before, and the error it
returns. -/
def InstallDependency (removable : String → Bool)
    (installWithCache : String → String → String → String → List String →
      List String × Option String)
    (gs : Supplier) (fs : FileSystem) (dependency : Dependency) :
    Supplier × FileSystem × Option String :=
  let swept := removeOtherVersions removable gs.DepCacheDir dependency
    (gs.CachedDeps.map Prod.fst) (gs.CachedDeps, fs)
  let gs1 := { gs with CachedDeps := swept.1 }
  match installWithCache dependency.Name dependency.Version
      (Join [gs.DepCacheDir, dependency.DirName]) dependency.StagingLocation swept.2.paths with
  | (paths2, some err) => (gs1, { swept.2 with paths := paths2 }, some err)
  | (paths2, none) =>
    let fs2 : FileSystem := { swept.2 with paths := paths2 }
    let fs3 :=
      if gs.KibanaConfig.Buildpack.NoCache then
        RemoveAll removable fs2 (Join [gs.DepCacheDir, dependency.DirName])
      else fs2
    ({ gs1 with CachedDeps := mapSet gs1.CachedDeps dependency.DirName "in use" }, fs3, none)

/-- The method `Supplier.RemoveUnusedDependencies`. -/
def RemoveUnusedDependencies (removable : String → Bool) (gs : Supplier) (fs : FileSystem) :
    Supplier × FileSystem × Option String :=
  (gs,
    gs.CachedDeps.foldl (fun fs1 entry =>
      if entry.2 = "" then RemoveAll removable fs1 (Join [gs.DepCacheDir, entry.1]) else fs1) fs,
    none)

/-! ## Plugin sources (`supply.go`, `InstallKibanaPlugins`) -/

/-- The method `Supplier.ReadLocalPlugins`; `listing` is what the directory
holds, `none` when it cannot be opened. -/
def ReadLocalPlugins (listing : Option (List String)) : List String :=
  match listing with
  | none => []
  | some list => list

/-- The method `Supplier.GetLocalPlugin`. -/
def GetLocalPlugin (pluginName : String) (pluginFileNames : List String) : String :=
  match pluginFileNames with
  | [] => ""
  | name :: rest => if HasPrefix name pluginName then name else GetLocalPlugin pluginName rest

/-- The choice among the sources of a plugin (`supply.go`, lines 660-674). -/
def pluginToInstall (gs : Supplier) (key : String)
    (xPackPlugins defaultPlugins userPlugins : List String) : String :=
  let xpackPlugin := GetLocalPlugin key xPackPlugins
  let defaultPlugin := GetLocalPlugin key defaultPlugins
  let userPlugin := GetLocalPlugin key userPlugins
  if xpackPlugin ≠ "" then Join [gs.XPack.StagingLocation, xpackPlugin]
  else if defaultPlugin ≠ "" then Join [gs.KibanaPlugins.StagingLocation, defaultPlugin]
  else if userPlugin ≠ "" then Join [gs.Stager.BuildDir, "plugins", userPlugin]
  else key

/-- The source handed to the plugin installer for a chosen plugin (`supply.go`,
lines 676-678). -/
def installerSource (chosen : String) : String :=
  if HasSuffix chosen ".zip" ∧ ¬(HasPrefix chosen "http://" ∨ HasPrefix chosen "https://") then
    "file://" ++ chosen
  else chosen

/-- The loop of `InstallKibanaPlugins` over the plugins to install: the sources
handed to the plugin installer so far, and the error of the first installation
that fails; `kibanaPlugin` is the outcome of the command `kibana-plugin install`
for a source. -/
def installPlugins (kibanaPlugin : String → Option String) (gs : Supplier)
    (xPackPlugins defaultPlugins userPlugins : List String) :
    List String → List String → List String × Option String
  | [], handed => (handed, none)
  | key :: rest, handed =>
    let source := installerSource (pluginToInstall gs key xPackPlugins defaultPlugins userPlugins)
    match kibanaPlugin source with
    | some err => (handed ++ [source], some err)
    | none =>
      installPlugins kibanaPlugin gs xPackPlugins defaultPlugins userPlugins rest
        (handed ++ [source])

/-- The method `Supplier.InstallKibanaPlugins`; `readDir` gives the names in a
directory, `none` when it cannot be opened. -/
def InstallKibanaPlugins (readDir : String → Option (List String))
    (kibanaPlugin : String → Option String) (gs : Supplier) : List String × Option String :=
  let xPackPlugins := ReadLocalPlugins (readDir gs.XPack.StagingLocation)
  let defaultPlugins := ReadLocalPlugins (readDir gs.KibanaPlugins.StagingLocation)
  let userPlugins := ReadLocalPlugins (readDir (gs.Stager.BuildDir ++ "/plugins/"))
  installPlugins kibanaPlugin gs xPackPlugins defaultPlugins userPlugins
    (gs.PluginsToInstall.map Prod.fst) []


/-- A build whose deps index and dependency directory are the same path, as
when the deps directory is the working directory. -/
def buildWithEqualRoots : Supplier :=
  { Manifest := { AllDependencyVersions := fun _ => ["6.2.1", "6.2.2", "5.9.0"] },
    Stager := { DepsIdx := "0", DepDir := "0" } }

/-- A build with the deps index `0` under the deps directory `/tmp/deps`. -/
def buildWithRoots : Supplier :=
  { Manifest := { AllDependencyVersions := fun _ => ["6.2.1", "6.2.2", "5.9.0"] },
    Stager := { DepsIdx := "0", DepDir := "/tmp/deps/0" } }


/-- The test of the loop of `InstallDependency`: a cached entry other than the
directory name of the dependency that starts with its name and a dash. -/
def isOtherVersion (dependency : Dependency) (cachedDep : String) : Bool :=
  cachedDep != dependency.DirName && HasPrefix cachedDep (dependency.Name ++ "-")

/-- The paths for which `InstallDependency` calls `os.RemoveAll`, as a function
of the keys of `CachedDeps`: the slots of the other versions, and the slot of
the dependency itself when the cache is switched off. -/
def issuedRemovals (gs : Supplier) (dependency : Dependency) : List String :=
  ((gs.CachedDeps.map Prod.fst).filter (isOtherVersion dependency)).map
      (fun cachedDep => Join [gs.DepCacheDir, cachedDep]) ++
    (if gs.KibanaConfig.Buildpack.NoCache then [Join [gs.DepCacheDir, dependency.DirName]]
     else [])

/-- The name of an entry of a directory: not empty, not `.` or `..`, and
without a separator. -/
def isEntryName (name : String) : Bool :=
  name != "" && name != "." && name != ".." && name.data.all (fun c => c != '/')

/-- A file system on which every removal succeeds. -/
def alwaysRemovable : String → Bool :=
  fun _ => true

/-- A file system on which no removal succeeds. -/
def neverRemovable : String → Bool :=
  fun _ => false

/-- An installer that succeeds and leaves the dependency in its slot of the
cache and at its staging location. -/
def installsIntoSlot : String → String → String → String → List String →
    List String × Option String :=
  fun _ _ slot staging paths => (paths ++ [slot, staging], none)

/-- The dependency `kibana` in version `6.2.2`, as `NewDependency` creates it. -/
def kibana622 : Dependency :=
  { Name := "kibana", Version := "6.2.2", VersionParts := 3, DirName := "kibana-6.2.2",
    RuntimeLocation := "0/kibana-6.2.2", StagingLocation := "/tmp/deps/0/kibana-6.2.2" }

/-- The dependency `gte` in version `3.1.0`, as `NewDependency` creates it. -/
def gte310 : Dependency :=
  { Name := "gte", Version := "3.1.0", VersionParts := 3, DirName := "gte-3.1.0",
    RuntimeLocation := "0/gte-3.1.0", StagingLocation := "/tmp/deps/0/gte-3.1.0" }

/-- A build whose cache holds an older `kibana`, and `kibana-plugins`, `x-pack`,
`gte` and `jq`; the last two have been installed in this build. -/
def buildWithCache : Supplier :=
  { DepCacheDir := "/cache/dependencies",
    CachedDeps :=
      [("kibana-6.2.1", ""), ("kibana-plugins-6.2.2", ""), ("x-pack-6.2.2", ""),
       ("gte-3.1.0", "in use"), ("jq-1.5.0", "in use")] }

/-- The cache directory of `buildWithCache`. -/
def cacheFiles : FileSystem :=
  { paths :=
      ["/cache/dependencies/kibana-6.2.1", "/cache/dependencies/kibana-plugins-6.2.2",
       "/cache/dependencies/x-pack-6.2.2", "/cache/dependencies/gte-3.1.0",
       "/cache/dependencies/jq-1.5.0"] }

/-- A build whose cache holds an older `gte`. -/
def buildWithOldGte : Supplier :=
  { DepCacheDir := "/cache/dependencies", CachedDeps := [("gte-3.0.0", "")] }

/-- The cache directory of `buildWithOldGte`. -/
def oldGteFiles : FileSystem :=
  { paths := ["/cache/dependencies/gte-3.0.0"] }

/-- A build at its end: `kibana` has been installed, `jq` has not been asked
for. -/
def buildAtEnd : Supplier :=
  { DepCacheDir := "/cache/dependencies",
    CachedDeps := [("jq-1.5.0", ""), ("kibana-6.2.2", "in use")] }

/-- The cache directory of `buildAtEnd`. -/
def endFiles : FileSystem :=
  { paths := ["/cache/dependencies/jq-1.5.0", "/cache/dependencies/kibana-6.2.2"] }


/-- The state after `gte-3.1.0` has been installed once in `buildWithOldGte`. -/
def afterFirstGte : Supplier × FileSystem × Option String :=
  InstallDependency alwaysRemovable installsIntoSlot buildWithOldGte oldGteFiles gte310

/-- The state after `gte-3.1.0` has been installed a second time. -/
def afterSecondGte : Supplier × FileSystem × Option String :=
  InstallDependency alwaysRemovable installsIntoSlot afterFirstGte.1 afterFirstGte.2.1 gte310


/-- A path that is an entry of the dependency cache directory. -/
def isCacheEntry (gs : Supplier) (path : String) : Prop :=
  ∃ name, isEntryName name = true ∧ path = Join [gs.DepCacheDir, name]

/-- The slots in the cache of the entries that are still unreferenced. -/
def unreferencedSlots (gs : Supplier) : List String :=
  (gs.CachedDeps.filter (fun entry => entry.2 == "")).map
    (fun entry => Join [gs.DepCacheDir, entry.1])


/-- The test of `GetLocalPlugin`: a file name that starts with the plugin name. -/
def startsWithPlugin (key : String) (fileName : String) : Bool :=
  HasPrefix fileName key

/-- A build with the bundles `x-pack` and `kibana-plugins` staged, that asks for
the plugin `analytics-plugin`. -/
def buildWithPlugins : Supplier :=
  { Stager := { BuildDir := "/tmp/app", DepDir := "/tmp/deps/0", DepsIdx := "0" },
    XPack := { Name := "x-pack", StagingLocation := "/tmp/deps/0/x-pack-6.2.2" },
    KibanaPlugins :=
      { Name := "kibana-plugins", StagingLocation := "/tmp/deps/0/kibana-plugins-6.2.2" },
    PluginsToInstall := [("analytics-plugin", "")] }

/-- The directories of `buildWithPlugins`: the bundle `kibana-plugins` and the
directory of the application both hold an archive of the plugin, the bundle
`x-pack` does not. -/
def pluginDirectories (dir : String) : Option (List String) :=
  if dir = "/tmp/deps/0/x-pack-6.2.2" then some ["x-pack-6.2.2.zip"]
  else if dir = "/tmp/deps/0/kibana-plugins-6.2.2" then
    some ["other-1.0.zip", "analytics-plugin-1.0.zip", "analytics-plugin-2.0.zip"]
  else if dir = "/tmp/app/plugins/" then some ["analytics-plugin-user.zip"]
  else none

/-- A build that asks for a plugin by the name `analytics.zip`. -/
def buildWithZipName : Supplier :=
  { Stager := { BuildDir := "/tmp/app", DepDir := "/tmp/deps/0", DepsIdx := "0" },
    PluginsToInstall := [("analytics.zip", "")] }

/-- No directory can be opened. -/
def noDirectories (_ : String) : Option (List String) :=
  none

/-- A plugin installer that succeeds. -/
def pluginInstallerOk (_ : String) : Option String :=
  none


/-- A default template that asks for a service tagged `redisx`. -/
def redisxTemplate : Template :=
  { Name := "redisx", IsDefault := true, Tags := ["redisx"] }

/-- A build in auto mode with two default templates: no bound instance is a
candidate for the first, two bound instances carry the tag of the second. -/
def buildWithEarlierFailure : Supplier :=
  { TemplatesConfig := { Templates := [redisxTemplate, elasticTemplate] },
    VcapServices :=
      [("elasticsearch",
        [{ Name := "es-a", Label := "elasticsearch", Tags := ["elasticsearch"] },
         { Name := "es-b", Label := "elasticsearch", Tags := ["elasticsearch"] }])] }

/-- An explicit build whose entries write the names of the templates
`monitoring` and `elasticsearch` with a blank in front, and supply no
service-instance name. -/
def buildExplicitPaddedNames : Supplier :=
  { TemplatesConfig := { Templates := [monitoringTemplate, elasticTemplate] },
    KibanaConfig :=
      { ConfigTemplates := [{ Name := " monitoring" }, { Name := " elasticsearch" }] } }


/-- A build, staged as `buildWithPlugins`, that asks for three plugins: one
with an archive in the bundle `kibana-plugins`, one given by the address of an
archive, one known by its name only. -/
def buildWithThreePlugins : Supplier :=
  { Stager := { BuildDir := "/tmp/app", DepDir := "/tmp/deps/0", DepsIdx := "0" },
    XPack := { Name := "x-pack", StagingLocation := "/tmp/deps/0/x-pack-6.2.2" },
    KibanaPlugins :=
      { Name := "kibana-plugins", StagingLocation := "/tmp/deps/0/kibana-plugins-6.2.2" },
    PluginsToInstall :=
      [("analytics-plugin", ""), ("https://example.org/reports.zip", ""), ("logtrail", "")] }

/-- A plugin installer without access to the network: it fails for an address
and succeeds for every other source. -/
def pluginInstallerOffline (source : String) : Option String :=
  if HasPrefix source "http" then some "exit status 70" else none

/-- The rule of `InstallKibanaPlugins` for the source `handed` to the plugin
installer, given the source `chosen` for the plugin, in the words of the
specification. -/
def followsSourceRule (chosen handed : String) : Prop :=
  (HasSuffix chosen ".zip" = true → HasPrefix chosen "http://" = false →
    HasPrefix chosen "https://" = false → handed = "file://" ++ chosen) ∧
  (HasPrefix chosen "http://" = true ∨ HasPrefix chosen "https://" = true → handed = chosen) ∧
  (HasSuffix chosen ".zip" = false → handed = chosen)

end Kibana

/-! # Theorems -/

namespace Kibana

/-! ## Service matching -/

theorem tagFound_eq_any (tags : List String) (st : String) :
    tagFound tags st = tags.any (fun t => EqualFold t st) := by
  induction tags with
  | nil => rfl
  | cons t ts ih =>
    simp only [tagFound, List.any_cons]
    cases h : EqualFold t st <;> simp [ih]

theorem appendIfTagged_eq (tags : List String) (inst : VcapService) (sts : List String)
    (result : List VcapService) :
    appendIfTagged tags inst sts result =
      if sts.any (fun st => tags.any (fun t => EqualFold t st)) then result ++ [inst]
      else result := by
  induction sts with
  | nil => rfl
  | cons st rest ih =>
    simp only [appendIfTagged, List.any_cons, tagFound_eq_any]
    by_cases h : tags.any (fun t => EqualFold t st) = true
    · simp [h]
    · simp [h, ih]

theorem withTagsInstances_eq (tags : List String) (insts result : List VcapService) :
    withTagsInstances tags insts result = result ++ insts.filter (taggedMatching tags) := by
  induction insts generalizing result with
  | nil => simp [withTagsInstances]
  | cons inst rest ih =>
    simp only [withTagsInstances, ih, appendIfTagged_eq, List.filter_cons, taggedMatching]
    split <;> simp

theorem withTags_foldl (tags : List String) (s : VcapServices) (acc : List VcapService) :
    s.foldl (fun result entry => withTagsInstances tags entry.2 result) acc =
      acc ++ taggedInstances s tags := by
  induction s generalizing acc with
  | nil => simp [taggedInstances]
  | cons entry rest ih =>
    rw [List.foldl_cons, ih, withTagsInstances_eq]
    simp [taggedInstances, List.flatMap_cons]

theorem WithTags_eq_taggedInstances (s : VcapServices) (tags : List String) :
    WithTags s tags = taggedInstances s tags := by
  simp [WithTags, withTags_foldl]

theorem taggedInstances_eq_bound (s : VcapServices) (tags : List String) :
    taggedInstances s tags =
      ((boundInstances s).filter (fun li => taggedMatching tags li.2)).map Prod.snd := by
  induction s with
  | nil => rfl
  | cons entry rest ih =>
    simp only [taggedInstances, boundInstances, List.flatMap_cons, List.filter_append,
      List.map_append] at ih ⊢
    rw [ih]
    congr 1
    induction entry.2 with
    | nil => rfl
    | cons inst insts ih2 =>
      simp only [List.filter_cons, List.map_cons]
      split <;> simp [ih2]

theorem appendInstances_eq (insts result : List VcapService) :
    appendInstances insts result = result ++ insts := by
  induction insts generalizing result with
  | nil => simp [appendInstances]
  | cons inst rest ih => simp [appendInstances, ih]

theorem userProvided_foldl (s : VcapServices) (acc : List VcapService) :
    s.foldl (fun result entry =>
        if entry.1 = "user-provided" then appendInstances entry.2 result else result) acc =
      acc ++ ((boundInstances s).filter isUserProvided).map Prod.snd := by
  induction s generalizing acc with
  | nil => simp [boundInstances]
  | cons entry rest ih =>
    rw [List.foldl_cons, ih]
    simp only [boundInstances, List.flatMap_cons, List.filter_append, List.map_append]
    by_cases h : entry.1 = "user-provided"
    · have hall : (entry.2.map (fun inst => (entry.1, inst))).filter isUserProvided =
          entry.2.map (fun inst => (entry.1, inst)) := by
        apply List.filter_eq_self.mpr
        intro li hli
        obtain ⟨inst, _, rfl⟩ := List.mem_map.mp hli
        simp [isUserProvided, h]
      rw [hall, if_pos h, appendInstances_eq, List.map_map]
      simp [Function.comp_def]
    · have hnone : (entry.2.map (fun inst => (entry.1, inst))).filter isUserProvided = [] := by
        apply List.filter_eq_nil_iff.mpr
        intro li hli
        obtain ⟨inst, _, rfl⟩ := List.mem_map.mp hli
        simp [isUserProvided, h]
      rw [hnone, if_neg h]
      simp

theorem UserProvided_eq_bound (s : VcapServices) :
    UserProvided s = ((boundInstances s).filter isUserProvided).map Prod.snd := by
  simp [UserProvided, userProvided_foldl]

theorem candidateServices_eq (gs : Supplier) (t : Template) :
    candidateServices gs t =
      WithTags gs.VcapServices t.Tags ++ UserProvided gs.VcapServices := by
  unfold candidateServices
  cases h1 : WithTags gs.VcapServices t.Tags <;>
    cases h2 : UserProvided gs.VcapServices <;> simp


/-! ## The selection loops -/

theorem withTemplates_self (gs : Supplier) : withTemplates gs gs.TemplatesToInstall = gs := by
  cases gs; rfl

theorem forEach_frame {α : Type} (body : Supplier → α → Supplier × Option String)
    (choice : α → List Template × Option String) (gs : Supplier)
    (hbody : ∀ l x, body (withTemplates gs l) x =
      (withTemplates gs (l ++ (choice x).1), (choice x).2))
    (l : List Template) (xs : List α) :
    forEach body (withTemplates gs l) xs =
      (withTemplates gs (l ++ (chooseAll choice xs).1), (chooseAll choice xs).2) := by
  induction xs generalizing l with
  | nil => simp [forEach, chooseAll]
  | cons x rest ih =>
    simp only [forEach, chooseAll, hbody]
    cases h : (choice x).2 with
    | none => simp [ih, List.append_assoc]
    | some err => simp

theorem chooseAll_ok_iff {α : Type} (choice : α → List Template × Option String)
    (xs : List α) :
    (chooseAll choice xs).2 = none ↔ ∀ x ∈ xs, (choice x).2 = none := by
  induction xs with
  | nil => simp [chooseAll]
  | cons x rest ih =>
    simp only [chooseAll, List.mem_cons, forall_eq_or_imp]
    cases h : (choice x).2 with
    | none => simp [ih]
    | some err => simp

theorem chooseAll_ok_sel {α : Type} (choice : α → List Template × Option String)
    (xs : List α) (hok : ∀ x ∈ xs, (choice x).2 = none) :
    (chooseAll choice xs).1 = xs.flatMap (fun x => (choice x).1) := by
  induction xs with
  | nil => simp [chooseAll]
  | cons x rest ih =>
    have hx : (choice x).2 = none := hok x (List.mem_cons_self _ _)
    have hrest : ∀ y ∈ rest, (choice y).2 = none := fun y hy => hok y (List.mem_cons_of_mem _ hy)
    simp [chooseAll, hx, ih hrest, List.flatMap_cons]

theorem chooseAll_stop {α : Type} (choice : α → List Template × Option String)
    (pre post : List α) (x : α) (err : String)
    (hpre : ∀ y ∈ pre, (choice y).2 = none) (hx : (choice x).2 = some err) :
    chooseAll choice (pre ++ x :: post) =
      (pre.flatMap (fun y => (choice y).1) ++ (choice x).1, some err) := by
  induction pre with
  | nil => simp [chooseAll, hx]
  | cons y rest ih =>
    have hy : (choice y).2 = none := hpre y (List.mem_cons_self _ _)
    have hrest : ∀ z ∈ rest, (choice z).2 = none := fun z hz => hpre z (List.mem_cons_of_mem _ hz)
    simp [chooseAll, hy, ih hrest, List.flatMap_cons, List.append_assoc]

theorem chooseAll_mem {α : Type} (choice : α → List Template × Option String)
    (xs : List α) (ti : Template) (hti : ti ∈ (chooseAll choice xs).1) :
    ∃ x ∈ xs, ti ∈ (choice x).1 := by
  induction xs with
  | nil => simp [chooseAll] at hti
  | cons x rest ih =>
    simp only [chooseAll] at hti
    cases h : (choice x).2 with
    | none =>
      simp only [h, List.mem_append] at hti
      rcases hti with hti | hti
      · exact ⟨x, List.mem_cons_self _ _, hti⟩
      · obtain ⟨y, hy, hmem⟩ := ih hti
        exact ⟨y, List.mem_cons_of_mem _ hy, hmem⟩
    | some err =>
      simp only [h] at hti
      exact ⟨x, List.mem_cons_self _ _, hti⟩

theorem installDefaultTemplate_frame (gs : Supplier) (l : List Template) (t : Template) :
    installDefaultTemplate (withTemplates gs l) t =
      (withTemplates gs (l ++ (defaultChoice gs t).1), (defaultChoice gs t).2) := by
  unfold defaultChoice installDefaultTemplate
  simp only [withTemplates, appendTemplate, candidateServices]
  repeat' split
  all_goals simp_all

theorem installNamedTemplate_frame (gs : Supplier) (l : List Template) (ct : ConfigTemplate)
    (templateName : String) (ts : List Template) :
    installNamedTemplate (withTemplates gs l) ct templateName ts =
      (withTemplates gs
          (l ++ (installNamedTemplate (withTemplates gs []) ct templateName ts).1.TemplatesToInstall),
        (installNamedTemplate (withTemplates gs []) ct templateName ts).2) := by
  induction ts with
  | nil => simp [installNamedTemplate, withTemplates]
  | cons t rest ih =>
    simp only [installNamedTemplate]
    split
    · simp only [withTemplates, appendTemplate]
      repeat' split
      all_goals simp_all
    · exact ih

theorem installConfigTemplate_frame (gs : Supplier) (l : List Template) (ct : ConfigTemplate) :
    installConfigTemplate (withTemplates gs l) ct =
      (withTemplates gs (l ++ (configChoice gs ct).1), (configChoice gs ct).2) := by
  unfold configChoice installConfigTemplate
  by_cases h : (Trim ct.Name).length = 0
  · simp [h, withTemplates]
  · simp only [h, if_false]
    exact installNamedTemplate_frame gs l ct (Trim ct.Name) _

/-- The auto branch as a function of what each known template selects. -/
theorem forEach_default (gs : Supplier) (ts : List Template) :
    forEach installDefaultTemplate gs ts =
      (withTemplates gs (gs.TemplatesToInstall ++ (chooseAll (defaultChoice gs) ts).1),
        (chooseAll (defaultChoice gs) ts).2) := by
  have h := forEach_frame installDefaultTemplate (defaultChoice gs) gs
    (installDefaultTemplate_frame gs) gs.TemplatesToInstall ts
  rwa [withTemplates_self] at h

/-- The explicit branch as a function of what each configured template selects. -/
theorem forEach_config (gs : Supplier) (cts : List ConfigTemplate) :
    forEach installConfigTemplate gs cts =
      (withTemplates gs (gs.TemplatesToInstall ++ (chooseAll (configChoice gs) cts).1),
        (chooseAll (configChoice gs) cts).2) := by
  have h := forEach_frame installConfigTemplate (configChoice gs) gs
    (installConfigTemplate_frame gs) gs.TemplatesToInstall cts
  rwa [withTemplates_self] at h


/-! ## The auto branch, one template at a time -/

theorem filter_or_eq_nil {α : Type} (p q : α → Bool) (L : List α)
    (h : L.filter (fun a => p a || q a) = []) : L.filter p = [] ∧ L.filter q = [] := by
  rw [List.filter_eq_nil_iff] at h
  constructor <;>
  · rw [List.filter_eq_nil_iff]
    intro a ha hp
    exact h a ha (by simp [hp])

theorem filter_or_singleton {α : Type} (p q : α → Bool) (L : List α) (x : α)
    (h : L.filter (fun a => p a || q a) = [x]) (hx : ¬(p x = true ∧ q x = true)) :
    L.filter p ++ L.filter q = [x] := by
  induction L with
  | nil => simp at h
  | cons y rest ih =>
    rw [List.filter_cons] at h
    by_cases hy : (p y || q y) = true
    · rw [if_pos hy] at h
      have hyx : y = x := (List.cons.inj h).1
      have hrest := filter_or_eq_nil p q rest (List.cons.inj h).2
      subst hyx
      rw [List.filter_cons, List.filter_cons, hrest.1, hrest.2]
      cases hp : p y <;> cases hq : q y <;> simp_all
    · rw [if_neg hy] at h
      have hpy : p y = false := by cases hp : p y <;> simp_all
      have hqy : q y = false := by cases hq : q y <;> simp_all
      rw [List.filter_cons, List.filter_cons, hpy, hqy]
      simpa using ih h

theorem filter_or_singleton_both {α : Type} (p q : α → Bool) (L : List α) (x : α)
    (h : L.filter (fun a => p a || q a) = [x]) (hp : p x = true) (hq : q x = true) :
    L.filter p = [x] ∧ L.filter q = [x] := by
  induction L with
  | nil => simp at h
  | cons y rest ih =>
    rw [List.filter_cons] at h
    by_cases hy : (p y || q y) = true
    · rw [if_pos hy] at h
      have hyx : y = x := (List.cons.inj h).1
      have hrest := filter_or_eq_nil p q rest (List.cons.inj h).2
      subst hyx
      rw [List.filter_cons, List.filter_cons, hrest.1, hrest.2]
      simp [hp, hq]
    · rw [if_neg hy] at h
      have hpy : p y = false := by cases hp : p y <;> simp_all
      have hqy : q y = false := by cases hq : q y <;> simp_all
      rw [List.filter_cons, List.filter_cons, hpy, hqy]
      simpa using ih h

/-- The list the auto branch counts, in terms of the bound instances: the
tagged-matching ones followed by the user-provided ones. -/
theorem candidateServices_eq_bound (gs : Supplier) (t : Template) :
    candidateServices gs t =
      ((boundInstances gs.VcapServices).filter (fun li => taggedMatching t.Tags li.2)).map Prod.snd
        ++ ((boundInstances gs.VcapServices).filter isUserProvided).map Prod.snd := by
  rw [candidateServices_eq, WithTags_eq_taggedInstances, taggedInstances_eq_bound,
    UserProvided_eq_bound]

theorem candidateServices_length (gs : Supplier) (t : Template) :
    (candidateServices gs t).length =
      ((boundInstances gs.VcapServices).filter (fun li => taggedMatching t.Tags li.2)).length
        + ((boundInstances gs.VcapServices).filter isUserProvided).length := by
  simp [candidateServices_eq_bound]

theorem candidateServices_of_no_candidate (gs : Supplier) (t : Template)
    (h : (boundInstances gs.VcapServices).filter (isCandidate t.Tags) = []) :
    candidateServices gs t = [] := by
  have h2 := filter_or_eq_nil (fun li : String × VcapService => taggedMatching t.Tags li.2)
    isUserProvided (boundInstances gs.VcapServices) h
  rw [candidateServices_eq_bound, h2.1, h2.2]
  rfl

theorem candidateServices_of_one_candidate (gs : Supplier) (t : Template)
    (li : String × VcapService)
    (h : (boundInstances gs.VcapServices).filter (isCandidate t.Tags) = [li])
    (hli : ¬(taggedMatching t.Tags li.2 = true ∧ isUserProvided li = true)) :
    candidateServices gs t = [li.2] := by
  have h2 := filter_or_singleton (fun li : String × VcapService => taggedMatching t.Tags li.2)
    isUserProvided (boundInstances gs.VcapServices) li h hli
  rw [candidateServices_eq_bound, ← List.map_append, h2]
  rfl

theorem candidateServices_of_double_candidate (gs : Supplier) (t : Template)
    (li : String × VcapService)
    (h : (boundInstances gs.VcapServices).filter (isCandidate t.Tags) = [li])
    (htag : taggedMatching t.Tags li.2 = true) (hup : isUserProvided li = true) :
    candidateServices gs t = [li.2, li.2] := by
  have h2 := filter_or_singleton_both
    (fun li : String × VcapService => taggedMatching t.Tags li.2)
    isUserProvided (boundInstances gs.VcapServices) li h htag hup
  rw [candidateServices_eq_bound, h2.1, h2.2]
  rfl

theorem step_not_default (gs : Supplier) (t : Template) (hdef : t.IsDefault = false) :
    installDefaultTemplate gs t = (gs, none) := by
  simp [installDefaultTemplate, hdef]

theorem step_no_tags (gs : Supplier) (t : Template) (hdef : t.IsDefault = true)
    (htags : t.Tags = []) :
    installDefaultTemplate gs t =
      (appendTemplate gs { t with ServiceInstanceName := "" }, none) := by
  simp [installDefaultTemplate, hdef, htags]

theorem step_zero (gs : Supplier) (t : Template) (hdef : t.IsDefault = true)
    (htags : t.Tags ≠ []) (hzero : candidateServices gs t = []) :
    installDefaultTemplate gs t =
      if gs.KibanaConfig.EnableServiceFallback = true then
        (appendTemplate gs { t with ServiceInstanceName := "" }, none)
      else (gs, some "no service found for template") := by
  have hlen : t.Tags.length > 0 := List.length_pos.mpr htags
  simp [installDefaultTemplate, hdef, hlen, hzero]

theorem step_many (gs : Supplier) (t : Template) (hdef : t.IsDefault = true)
    (htags : t.Tags ≠ []) (hmany : 2 ≤ (candidateServices gs t).length) :
    installDefaultTemplate gs t = (gs, some "more than one service found for template") := by
  have hlen : t.Tags.length > 0 := List.length_pos.mpr htags
  have h0 : ¬ (candidateServices gs t).length = 0 := by omega
  have h1 : (candidateServices gs t).length > 1 := by omega
  simp only [installDefaultTemplate, hdef, hlen, if_true, h0, if_false, h1]

theorem step_one (gs : Supplier) (t : Template) (v : VcapService) (hdef : t.IsDefault = true)
    (htags : t.Tags ≠ []) (hone : candidateServices gs t = [v]) :
    installDefaultTemplate gs t =
      (appendTemplate gs { t with ServiceInstanceName := v.Name }, none) := by
  have hlen : t.Tags.length > 0 := List.length_pos.mpr htags
  simp [installDefaultTemplate, hdef, hlen, hone]

theorem defaultChoice_err (gs : Supplier) (t : Template) :
    (defaultChoice gs t).2 = (installDefaultTemplate gs t).2 := by
  have h := installDefaultTemplate_frame gs gs.TemplatesToInstall t
  rw [withTemplates_self] at h
  rw [h]

theorem defaultChoice_not_default (gs : Supplier) (t : Template) (hdef : t.IsDefault = false) :
    defaultChoice gs t = ([], none) := by
  rw [defaultChoice, step_not_default (withTemplates gs []) t hdef]
  simp [withTemplates]

theorem defaultChoice_no_tags (gs : Supplier) (t : Template) (hdef : t.IsDefault = true)
    (htags : t.Tags = []) :
    defaultChoice gs t = ([{ t with ServiceInstanceName := "" }], none) := by
  rw [defaultChoice, step_no_tags (withTemplates gs []) t hdef htags]
  simp [withTemplates, appendTemplate]

theorem defaultChoice_zero (gs : Supplier) (t : Template) (hdef : t.IsDefault = true)
    (htags : t.Tags ≠ []) (hzero : candidateServices gs t = []) :
    defaultChoice gs t =
      if gs.KibanaConfig.EnableServiceFallback = true then
        ([{ t with ServiceInstanceName := "" }], none)
      else ([], some "no service found for template") := by
  have hz : candidateServices (withTemplates gs []) t = [] := hzero
  rw [defaultChoice, step_zero (withTemplates gs []) t hdef htags hz]
  cases hf : gs.KibanaConfig.EnableServiceFallback <;>
    simp [withTemplates, appendTemplate, hf]

theorem defaultChoice_many (gs : Supplier) (t : Template) (hdef : t.IsDefault = true)
    (htags : t.Tags ≠ []) (hmany : 2 ≤ (candidateServices gs t).length) :
    defaultChoice gs t = ([], some "more than one service found for template") := by
  have hm : 2 ≤ (candidateServices (withTemplates gs []) t).length := hmany
  rw [defaultChoice, step_many (withTemplates gs []) t hdef htags hm]
  simp [withTemplates]

theorem defaultChoice_one (gs : Supplier) (t : Template) (v : VcapService)
    (hdef : t.IsDefault = true) (htags : t.Tags ≠ []) (hone : candidateServices gs t = [v]) :
    defaultChoice gs t = ([{ t with ServiceInstanceName := v.Name }], none) := by
  have h1 : candidateServices (withTemplates gs []) t = [v] := hone
  rw [defaultChoice, step_one (withTemplates gs []) t v hdef htags h1]
  simp [withTemplates, appendTemplate]

/-- What a known template contributes when the body of the auto branch does
not fail on it. -/
theorem defaultChoice_ok (gs : Supplier) (t : Template) (hdef : t.IsDefault = true)
    (hok : (defaultChoice gs t).2 = none) :
    ∃ name, (defaultChoice gs t).1 = [{ t with ServiceInstanceName := name }] ∧
      (t.Tags = [] → name = "") := by
  by_cases htags : t.Tags = []
  · exact ⟨"", by rw [defaultChoice_no_tags gs t hdef htags], fun _ => rfl⟩
  · cases hc : candidateServices gs t with
    | nil =>
      rw [defaultChoice_zero gs t hdef htags hc] at hok ⊢
      cases hf : gs.KibanaConfig.EnableServiceFallback
      · simp [hf] at hok
      · exact ⟨"", by simp, fun h => absurd h htags⟩
    | cons v rest =>
      cases rest with
      | nil =>
        rw [defaultChoice_one gs t v hdef htags hc]
        exact ⟨v.Name, rfl, fun h => absurd h htags⟩
      | cons w rest2 =>
        have hm : 2 ≤ (candidateServices gs t).length := by simp [hc]
        rw [defaultChoice_many gs t hdef htags hm] at hok
        simp at hok

theorem defaultChoice_failed (gs : Supplier) (t : Template) (err : String)
    (herr : (defaultChoice gs t).2 = some err) : (defaultChoice gs t).1 = [] := by
  cases hdef : t.IsDefault
  · rw [defaultChoice_not_default gs t hdef]
  · by_cases htags : t.Tags = []
    · rw [defaultChoice_no_tags gs t hdef htags] at herr
      simp at herr
    · cases hc : candidateServices gs t with
      | nil =>
        rw [defaultChoice_zero gs t hdef htags hc] at herr ⊢
        cases hf : gs.KibanaConfig.EnableServiceFallback
        · simp
        · simp [hf] at herr
      | cons v rest =>
        cases rest with
        | nil =>
          rw [defaultChoice_one gs t v hdef htags hc] at herr
          simp at herr
        | cons w rest2 =>
          have hm : 2 ≤ (candidateServices gs t).length := by simp [hc]
          rw [defaultChoice_many gs t hdef htags hm]


/-! ## The selection pass and `InstallTemplates` -/

theorem selectTemplates_auto (gs : Supplier) (hauto : autoMode gs = true) :
    selectTemplates gs =
      (withTemplates gs (gs.TemplatesToInstall ++
          (chooseAll (defaultChoice gs) gs.TemplatesConfig.Templates).1),
        (chooseAll (defaultChoice gs) gs.TemplatesConfig.Templates).2) := by
  rw [selectTemplates, if_pos hauto, forEach_default]

theorem selectTemplates_explicit (gs : Supplier) (hexp : autoMode gs = false) :
    selectTemplates gs =
      (withTemplates gs (gs.TemplatesToInstall ++
          (chooseAll (configChoice gs) gs.KibanaConfig.ConfigTemplates).1),
        (chooseAll (configChoice gs) gs.KibanaConfig.ConfigTemplates).2) := by
  rw [selectTemplates, if_neg (by simp [hexp]), forEach_config]

theorem InstallTemplates_templates (gte : Template → Option String) (gs : Supplier) :
    (InstallTemplates gte gs).1.TemplatesToInstall =
      (selectTemplates gs).1.TemplatesToInstall := by
  unfold InstallTemplates
  split
  · next gs1 err h => rw [h]
  · next gs1 h =>
    rw [h]
    split <;> rfl

theorem InstallTemplates_of_select_error (gte : Template → Option String) (gs : Supplier)
    (err : String) (h : (selectTemplates gs).2 = some err) :
    (InstallTemplates gte gs).2 = some err := by
  unfold InstallTemplates
  split
  · next gs1 err1 h1 =>
    rw [h1] at h
    exact h
  · next gs1 h1 =>
    rw [h1] at h
    simp at h

theorem auto_pass_error (gs : Supplier) (gte : Template → Option String)
    (hauto : autoMode gs = true) (pre post : List Template) (t : Template) (err : String)
    (hts : gs.TemplatesConfig.Templates = pre ++ t :: post)
    (hpre : ∀ t1 ∈ pre, (installDefaultTemplate gs t1).2 = none)
    (ht : (installDefaultTemplate gs t).2 = some err) :
    (selectTemplates gs).2 = some err ∧ (InstallTemplates gte gs).2 = some err := by
  have hsel : (selectTemplates gs).2 = some err := by
    rw [selectTemplates_auto gs hauto, hts]
    have h := chooseAll_stop (defaultChoice gs) pre post t err
      (fun y hy => by rw [defaultChoice_err]; exact hpre y hy)
      (by rw [defaultChoice_err]; exact ht)
    rw [h]
  exact ⟨hsel, InstallTemplates_of_select_error gte gs err hsel⟩

theorem auto_pass_fails (gs : Supplier) (gte : Template → Option String)
    (hauto : autoMode gs = true) (t : Template) (err : String)
    (hmem : t ∈ gs.TemplatesConfig.Templates)
    (ht : (installDefaultTemplate gs t).2 = some err) :
    (selectTemplates gs).2 ≠ none ∧ (InstallTemplates gte gs).2 ≠ none := by
  have hsel : (selectTemplates gs).2 ≠ none := by
    intro hnone
    rw [selectTemplates_auto gs hauto] at hnone
    have h := (chooseAll_ok_iff (defaultChoice gs) gs.TemplatesConfig.Templates).mp hnone t hmem
    rw [defaultChoice_err, ht] at h
    simp at h
  refine ⟨hsel, ?_⟩
  cases hs : (selectTemplates gs).2 with
  | none => exact absurd hs hsel
  | some e =>
    rw [InstallTemplates_of_select_error gte gs e hs]
    simp

theorem candidateServices_congr (gs : Supplier) (t1 t2 : Template) (h : t1.Tags = t2.Tags) :
    candidateServices gs t1 = candidateServices gs t2 := by
  unfold candidateServices
  rw [h]

/-- A template on which the body of the auto branch fails is never among the
templates the loop selects, whatever service name it would carry. -/
theorem failed_template_not_selected (gs : Supplier) (ts : List Template) (t : Template)
    (htags : t.Tags ≠ [])
    (hmany : 2 ≤ (candidateServices gs t).length) (name : String) :
    ({ t with ServiceInstanceName := name } : Template) ∉ (chooseAll (defaultChoice gs) ts).1 := by
  intro hti
  obtain ⟨x, _, hx⟩ := chooseAll_mem (defaultChoice gs) ts _ hti
  cases hxdef : x.IsDefault with
  | false => simp [defaultChoice_not_default gs x hxdef] at hx
  | true =>
    cases hxerr : (defaultChoice gs x).2 with
    | some e => simp [defaultChoice_failed gs x e hxerr] at hx
    | none =>
      obtain ⟨n, hsel, _⟩ := defaultChoice_ok gs x hxdef hxerr
      rw [hsel, List.mem_singleton] at hx
      have hxt : x.Tags = t.Tags := by
        have := congrArg Template.Tags hx
        simpa using this.symm
      have hxtags : x.Tags ≠ [] := by rw [hxt]; exact htags
      have hxmany : 2 ≤ (candidateServices gs x).length := by
        rw [candidateServices_congr gs x t hxt]; exact hmany
      rw [defaultChoice_many gs x hxdef hxtags hxmany] at hxerr
      simp at hxerr

theorem flatMap_default_forall2 (gs : Supplier) (ts : List Template)
    (hok : ∀ t ∈ ts, (defaultChoice gs t).2 = none) :
    List.Forall₂
      (fun ti t => (∃ name, ti = { t with ServiceInstanceName := name }) ∧
        (t.Tags = [] → ti.ServiceInstanceName = ""))
      (ts.flatMap (fun t => (defaultChoice gs t).1))
      (ts.filter (fun t => t.IsDefault)) := by
  induction ts with
  | nil => simp
  | cons t rest ih =>
    have hrest := ih (fun y hy => hok y (List.mem_cons_of_mem _ hy))
    have ht := hok t (List.mem_cons_self _ _)
    rw [List.flatMap_cons, List.filter_cons]
    cases hdef : t.IsDefault with
    | false =>
      rw [defaultChoice_not_default gs t hdef]
      simpa using hrest
    | true =>
      obtain ⟨name, hsel, hname⟩ := defaultChoice_ok gs t hdef ht
      rw [hsel]
      simp only [if_true, List.singleton_append]
      refine List.Forall₂.cons ⟨⟨name, rfl⟩, ?_⟩ hrest
      intro h
      simp [hname h]


/-! ## Claims on the auto branch -/

/-- Supporting C1: a single candidate that is tagged-matching or user-provided,
but not both, is bound: the body of the auto branch selects the template with
the name of that instance. -/
theorem auto_single_candidate_bound (gs : Supplier) (t : Template)
    (li : String × VcapService) (hdef : t.IsDefault = true) (htags : t.Tags ≠ [])
    (hone : (boundInstances gs.VcapServices).filter (isCandidate t.Tags) = [li])
    (hli : ¬(taggedMatching t.Tags li.2 = true ∧ isUserProvided li = true)) :
    installDefaultTemplate gs t =
      (appendTemplate gs { t with ServiceInstanceName := li.2.Name }, none) :=
  step_one gs t li.2 hdef htags (candidateServices_of_one_candidate gs t li hone hli)

/-- Supporting C1: a single candidate that is both tagged-matching and
user-provided is counted twice, and the body of the auto branch fails on the
template. -/
theorem auto_single_candidate_counted_twice (gs : Supplier) (t : Template)
    (li : String × VcapService) (hdef : t.IsDefault = true) (htags : t.Tags ≠ [])
    (hone : (boundInstances gs.VcapServices).filter (isCandidate t.Tags) = [li])
    (htag : taggedMatching t.Tags li.2 = true) (hup : isUserProvided li = true) :
    installDefaultTemplate gs t = (gs, some "more than one service found for template") :=
  step_many gs t hdef htags
    (by rw [candidateServices_of_double_candidate gs t li hone htag hup]; simp)

/-- C1, at the failing input: in auto mode, with the default template
`elasticsearch` that requires the tag `elasticsearch` and, as only bound
service, the user-provided instance `my-es` that carries this tag, exactly one
instance is a candidate, and yet the selection pass fails with
"more than one service found for template" and selects nothing. -/
theorem single_tagged_user_provided_instance_rejected :
    autoMode buildWithTaggedUserProvided = true ∧
    elasticTemplate.IsDefault = true ∧ elasticTemplate.Tags ≠ [] ∧
    (boundInstances buildWithTaggedUserProvided.VcapServices).filter
        (isCandidate elasticTemplate.Tags) = [("user-provided", taggedUserProvided)] ∧
    (installDefaultTemplate buildWithTaggedUserProvided elasticTemplate).2 =
      some "more than one service found for template" ∧
    (selectTemplates buildWithTaggedUserProvided).2 =
      some "more than one service found for template" ∧
    (selectTemplates buildWithTaggedUserProvided).1.TemplatesToInstall = [] := by
  decide

/-- C2, counterexample: the is-fallback flag of the template is not consulted.
A fallback template with no candidate fails with "no service found for
template" when service fallback is not enabled in the Kibana file, and a
template that is no fallback template is selected, unbound, when it is. -/
theorem template_fallback_flag_not_consulted :
    (autoMode buildFallbackTemplateOnly = true ∧
      elasticFallbackTemplate.IsDefault = true ∧ elasticFallbackTemplate.Tags ≠ [] ∧
      elasticFallbackTemplate.IsFallback = true ∧
      (boundInstances buildFallbackTemplateOnly.VcapServices).filter
        (isCandidate elasticFallbackTemplate.Tags) = [] ∧
      (selectTemplates buildFallbackTemplateOnly).2 = some "no service found for template" ∧
      (selectTemplates buildFallbackTemplateOnly).1.TemplatesToInstall = []) ∧
    (autoMode buildFallbackEnabled = true ∧
      elasticTemplate.IsDefault = true ∧ elasticTemplate.Tags ≠ [] ∧
      elasticTemplate.IsFallback = false ∧
      (boundInstances buildFallbackEnabled.VcapServices).filter
        (isCandidate elasticTemplate.Tags) = [] ∧
      (selectTemplates buildFallbackEnabled).2 = none ∧
      (selectTemplates buildFallbackEnabled).1.TemplatesToInstall = [elasticTemplate]) := by
  decide

/-- C2, as amended: in auto mode, for a default template with at least one
required tag and no candidate service instance, the outcome follows the switch
`EnableServiceFallback` of the Kibana file, whatever the is-fallback flag of
the template.  With the switch on, the template is selected with an empty
service-instance name and the pass does not fail on it; with the switch off,
the body of the loop returns "no service found for template", `InstallTemplates`
fails, and it fails with that error when no earlier template has failed. -/
theorem auto_no_candidate_follows_fallback_switch (gs : Supplier)
    (gte : Template → Option String) (t : Template)
    (hauto : autoMode gs = true) (hmem : t ∈ gs.TemplatesConfig.Templates)
    (hdef : t.IsDefault = true) (htags : t.Tags ≠ [])
    (hnone : (boundInstances gs.VcapServices).filter (isCandidate t.Tags) = []) :
    (gs.KibanaConfig.EnableServiceFallback = true →
      installDefaultTemplate gs t =
        (appendTemplate gs { t with ServiceInstanceName := "" }, none)) ∧
    (gs.KibanaConfig.EnableServiceFallback = false →
      installDefaultTemplate gs t = (gs, some "no service found for template") ∧
      (InstallTemplates gte gs).2 ≠ none ∧
      ∀ pre post, gs.TemplatesConfig.Templates = pre ++ t :: post →
        (∀ t1 ∈ pre, (installDefaultTemplate gs t1).2 = none) →
        (InstallTemplates gte gs).2 = some "no service found for template") := by
  have hzero := candidateServices_of_no_candidate gs t hnone
  have hstep := step_zero gs t hdef htags hzero
  constructor
  · intro hf
    rw [hstep, if_pos hf]
  · intro hf
    have hstep2 : installDefaultTemplate gs t = (gs, some "no service found for template") := by
      rw [hstep, if_neg (by simp [hf])]
    have herr : (installDefaultTemplate gs t).2 = some "no service found for template" := by
      rw [hstep2]
    refine ⟨hstep2, (auto_pass_fails gs gte hauto t _ hmem herr).2, ?_⟩
    intro pre post hts hpre
    exact (auto_pass_error gs gte hauto pre post t _ hts hpre herr).2

/-- C2, witness of the amended statement at the build with a fallback template,
no bound service and the switch off. -/
theorem auto_no_candidate_follows_fallback_switch_witness :
    installDefaultTemplate buildFallbackTemplateOnly elasticFallbackTemplate =
      (buildFallbackTemplateOnly, some "no service found for template") ∧
    (InstallTemplates (fun _ => none) buildFallbackTemplateOnly).2 ≠ none :=
  have h := (auto_no_candidate_follows_fallback_switch buildFallbackTemplateOnly
    (fun _ => none) elasticFallbackTemplate (by decide) (by decide) (by decide) (by decide)
    (by decide)).2 (by decide)
  ⟨h.1, h.2.1⟩

/-- C3, counterexample: two bound instances carry the tag of the default
template `elasticsearch`, and the template `redisx` before it has no candidate.
`InstallTemplates` returns the error of the earlier template, "no service found
for template", not the one of the ambiguous binding. -/
theorem earlier_failure_hides_ambiguity :
    autoMode buildWithEarlierFailure = true ∧
    elasticTemplate ∈ buildWithEarlierFailure.TemplatesConfig.Templates ∧
    elasticTemplate.IsDefault = true ∧ elasticTemplate.Tags ≠ [] ∧
    2 ≤ ((boundInstances buildWithEarlierFailure.VcapServices).filter
        (fun li => taggedMatching elasticTemplate.Tags li.2)).length +
      ((boundInstances buildWithEarlierFailure.VcapServices).filter isUserProvided).length ∧
    (InstallTemplates (fun _ => none) buildWithEarlierFailure).2 =
      some "no service found for template" ∧
    (InstallTemplates (fun _ => none) buildWithEarlierFailure).2 ≠
      some "more than one service found for template" := by
  decide

/-- C3, as amended: in auto mode, for a default template with at least one
required tag, when the tagged-matching instances and the user-provided
instances together number two or more (two tagged-matching instances being one
such case), the body of the loop fails on it: it returns "more than one service
found for template" and leaves the state as it was.  `InstallTemplates` returns
an error, which is this error when no earlier template has failed; and the
templates it has selected by then do not contain the template, whatever service
name it would carry. -/
theorem auto_ambiguous_binding_fails (gs : Supplier) (gte : Template → Option String)
    (t : Template) (hauto : autoMode gs = true) (hmem : t ∈ gs.TemplatesConfig.Templates)
    (hdef : t.IsDefault = true) (htags : t.Tags ≠ [])
    (hmany : 2 ≤
      ((boundInstances gs.VcapServices).filter (fun li => taggedMatching t.Tags li.2)).length +
      ((boundInstances gs.VcapServices).filter isUserProvided).length) :
    installDefaultTemplate gs t = (gs, some "more than one service found for template") ∧
    (InstallTemplates gte gs).2 ≠ none ∧
    (∀ pre post, gs.TemplatesConfig.Templates = pre ++ t :: post →
      (∀ t1 ∈ pre, (installDefaultTemplate gs t1).2 = none) →
      (InstallTemplates gte gs).2 = some "more than one service found for template") ∧
    (∃ selected, (InstallTemplates gte gs).1.TemplatesToInstall =
        gs.TemplatesToInstall ++ selected ∧
      ∀ name, ({ t with ServiceInstanceName := name } : Template) ∉ selected) := by
  have hlen : 2 ≤ (candidateServices gs t).length := by
    rw [candidateServices_length]; exact hmany
  have hstep := step_many gs t hdef htags hlen
  have herr : (installDefaultTemplate gs t).2 =
      some "more than one service found for template" := by rw [hstep]
  refine ⟨hstep, (auto_pass_fails gs gte hauto t _ hmem herr).2, ?_, ?_⟩
  · intro pre post hts hpre
    exact (auto_pass_error gs gte hauto pre post t _ hts hpre herr).2
  · refine ⟨(chooseAll (defaultChoice gs) gs.TemplatesConfig.Templates).1, ?_, ?_⟩
    · rw [InstallTemplates_templates, selectTemplates_auto gs hauto]
      rfl
    · intro name
      exact failed_template_not_selected gs _ t htags hlen name

/-- C3, witness: two bound instances carry the required tag, in other letter
case; the build fails with the ambiguity error. -/
theorem auto_ambiguous_binding_fails_witness :
    (InstallTemplates (fun _ => none) buildWithTwoTagged).2 =
      some "more than one service found for template" :=
  (auto_ambiguous_binding_fails buildWithTwoTagged (fun _ => none) elasticTemplate
    (by decide) (by decide) (by decide) (by decide) (by decide)).2.2.1
    [plainTemplate] [] (by decide) (by decide)

/-- C4: in auto mode, starting from an empty `TemplatesToInstall`, when the
selection pass succeeds the selected templates are the known templates with
`IsDefault` true, one for one and in the order of the known templates, each
with a service-instance name filled in; every selected template is a default
template; and a default template without required tags is selected with an
empty service-instance name, whatever services are bound. -/
theorem auto_selects_default_templates (gs : Supplier) (hauto : autoMode gs = true)
    (hempty : gs.TemplatesToInstall = []) (hok : (selectTemplates gs).2 = none) :
    List.Forall₂
      (fun ti t => (∃ name, ti = { t with ServiceInstanceName := name }) ∧
        (t.Tags = [] → ti.ServiceInstanceName = ""))
      (selectTemplates gs).1.TemplatesToInstall
      (gs.TemplatesConfig.Templates.filter (fun t => t.IsDefault)) ∧
    (∀ ti ∈ (selectTemplates gs).1.TemplatesToInstall, ti.IsDefault = true) ∧
    (∀ t ∈ gs.TemplatesConfig.Templates, t.IsDefault = true → t.Tags = [] →
      ({ t with ServiceInstanceName := "" } : Template) ∈
        (selectTemplates gs).1.TemplatesToInstall) := by
  rw [selectTemplates_auto gs hauto] at hok ⊢
  have hall := (chooseAll_ok_iff (defaultChoice gs) gs.TemplatesConfig.Templates).mp hok
  have hsel := chooseAll_ok_sel (defaultChoice gs) gs.TemplatesConfig.Templates hall
  simp only [withTemplates, hempty, List.nil_append, hsel]
  refine ⟨flatMap_default_forall2 gs _ hall, ?_, ?_⟩
  · intro ti hti
    obtain ⟨t, ht, hmem⟩ := List.mem_flatMap.mp hti
    cases hdef : t.IsDefault with
    | false => simp [defaultChoice_not_default gs t hdef] at hmem
    | true =>
      obtain ⟨name, hc, _⟩ := defaultChoice_ok gs t hdef (hall t ht)
      rw [hc, List.mem_singleton] at hmem
      rw [hmem]
      exact hdef
  · intro t ht hdef htags
    apply List.mem_flatMap.mpr
    refine ⟨t, ht, ?_⟩
    rw [defaultChoice_no_tags gs t hdef htags]
    simp

/-- C4, witness: a build with a default template without tags, a template that
is not a default, and a default template bound to the one tagged instance. -/
theorem auto_selects_default_templates_witness :
    (selectTemplates buildWithOneTagged).1.TemplatesToInstall =
        [plainTemplate, { elasticTemplate with ServiceInstanceName := "es-a" }] ∧
    ∀ ti ∈ (selectTemplates buildWithOneTagged).1.TemplatesToInstall, ti.IsDefault = true :=
  ⟨by decide,
    (auto_selects_default_templates buildWithOneTagged (by decide) (by decide)
      (by decide)).2.1⟩


/-! ## Claim on `WithTags` -/

theorem taggedInstances_eq_filter (s : VcapServices) (tags : List String) :
    taggedInstances s tags = (s.flatMap (fun entry => entry.2)).filter (taggedMatching tags) := by
  induction s with
  | nil => rfl
  | cons entry rest ih =>
    simp only [taggedInstances, List.flatMap_cons, List.filter_append] at ih ⊢
    rw [ih]

/-- C8: `WithTags` returns the instances that have a tag equal, ignoring letter
case, to a required tag.  It is the list the specification describes, label by
label; it is the list of all bound instances with the others filtered out, so
the order within a label is kept and every matching instance occurs as often as
in the input, every other instance not at all; without required tags nothing is
returned, and an instance without tags is never returned. -/
theorem WithTags_exact (s : VcapServices) (tags : List String) :
    WithTags s tags = taggedInstances s tags ∧
    WithTags s tags = (s.flatMap (fun entry => entry.2)).filter (taggedMatching tags) ∧
    (∀ inst, (WithTags s tags).count inst =
      if taggedMatching tags inst = true then (s.flatMap (fun entry => entry.2)).count inst
      else 0) ∧
    WithTags s [] = [] ∧
    (∀ inst, inst.Tags = [] → inst ∉ WithTags s tags) := by
  have h1 := WithTags_eq_taggedInstances s tags
  have h2 : WithTags s tags =
      (s.flatMap (fun entry => entry.2)).filter (taggedMatching tags) := by
    rw [h1, taggedInstances_eq_filter]
  refine ⟨h1, h2, ?_, ?_, ?_⟩
  · intro inst
    rw [h2]
    by_cases hp : taggedMatching tags inst = true
    · rw [if_pos hp, List.count_filter hp]
    · rw [if_neg hp, List.count_eq_zero]
      intro hmem
      exact hp (List.mem_filter.mp hmem).2
  · rw [WithTags_eq_taggedInstances, taggedInstances_eq_filter]
    apply List.filter_eq_nil_iff.mpr
    intro inst _
    simp [taggedMatching]
  · intro inst htags hmem
    rw [h2] at hmem
    have hp := (List.mem_filter.mp hmem).2
    simp [taggedMatching, htags] at hp

/-- C8, witness: of three bound instances, the two that carry the required tag
in some letter case are returned, once each and in order, and the instance
without tags is not. -/
theorem WithTags_exact_witness :
    WithTags buildWithTwoTagged.VcapServices ["elasticsearch", "search"] =
      [{ Name := "es-a", Label := "elasticsearch", Tags := ["search", "ELASTICSEARCH"] },
       { Name := "es-b", Label := "elasticsearch", Tags := ["Elasticsearch"] }] ∧
    ({ Name := "none" } : VcapService) ∉
      WithTags [("p", [{ Name := "none" }])] ["elasticsearch"] :=
  ⟨by decide,
    (WithTags_exact [("p", [{ Name := "none" }])] ["elasticsearch"]).2.2.2.2
      { Name := "none" } rfl⟩

/-! ## The explicit branch, one entry at a time -/

theorem string_length_eq_zero (s : String) : s.length = 0 ↔ s = "" := by
  constructor
  · intro h
    cases s with
    | mk data =>
      have hd : data = [] := List.length_eq_zero.mp h
      rw [hd]
  · intro h
    rw [h]
    rfl

theorem installNamedTemplate_none (gs : Supplier) (ct : ConfigTemplate) (templateName : String)
    (ts : List Template) (h : firstNamed templateName ts = none) :
    installNamedTemplate gs ct templateName ts = (gs, none) := by
  induction ts with
  | nil => rfl
  | cons t rest ih =>
    unfold firstNamed at h
    rw [List.find?_cons] at h
    by_cases hname : templateName = t.Name
    · simp [hname] at h
    · simp only [hname, decide_False] at h
      simp only [installNamedTemplate, if_neg hname]
      exact ih h

theorem installNamedTemplate_some (gs : Supplier) (ct : ConfigTemplate) (templateName : String)
    (ts : List Template) (t : Template) (h : firstNamed templateName ts = some t) :
    installNamedTemplate gs ct templateName ts =
      if Trim ct.ServiceInstanceName = "" ∧ t.Tags ≠ [] then
        (gs, some "no service instance name defined for template in Kibana file")
      else (appendTemplate gs (boundTemplate ct t), none) := by
  induction ts with
  | nil => simp [firstNamed] at h
  | cons t0 rest ih =>
    unfold firstNamed at h
    rw [List.find?_cons] at h
    by_cases hname : templateName = t0.Name
    · simp only [hname, decide_True] at h
      have ht : t0 = t := Option.some.inj h
      subst ht
      simp only [installNamedTemplate, if_pos hname, string_length_eq_zero, boundTemplate,
        gt_iff_lt, List.length_pos, Nat.pos_iff_ne_zero, ne_eq, List.length_eq_zero]
    · simp only [hname, decide_False] at h
      simp only [installNamedTemplate, if_neg hname]
      exact ih h

theorem installConfigTemplate_none (gs : Supplier) (ct : ConfigTemplate)
    (h : namedTemplate gs ct = none) : installConfigTemplate gs ct = (gs, none) := by
  unfold namedTemplate at h
  unfold installConfigTemplate
  by_cases hblank : Trim ct.Name = ""
  · simp [hblank]
  · rw [if_neg hblank] at h
    have hlen : ¬ (Trim ct.Name).length = 0 := fun hl => hblank ((string_length_eq_zero _).mp hl)
    simp only [hlen, if_false]
    exact installNamedTemplate_none gs ct _ _ h

theorem installConfigTemplate_some (gs : Supplier) (ct : ConfigTemplate) (t : Template)
    (h : namedTemplate gs ct = some t) :
    installConfigTemplate gs ct =
      if Trim ct.ServiceInstanceName = "" ∧ t.Tags ≠ [] then
        (gs, some "no service instance name defined for template in Kibana file")
      else (appendTemplate gs (boundTemplate ct t), none) := by
  unfold namedTemplate at h
  unfold installConfigTemplate
  by_cases hblank : Trim ct.Name = ""
  · simp [hblank] at h
  · rw [if_neg hblank] at h
    have hlen : ¬ (Trim ct.Name).length = 0 := fun hl => hblank ((string_length_eq_zero _).mp hl)
    simp only [hlen, if_false]
    exact installNamedTemplate_some gs ct _ _ t h

theorem namedTemplate_spec (gs : Supplier) (ct : ConfigTemplate) (t : Template)
    (h : namedTemplate gs ct = some t) :
    t ∈ gs.TemplatesConfig.Templates ∧ Trim ct.Name = t.Name ∧ Trim ct.Name ≠ "" := by
  unfold namedTemplate at h
  by_cases hblank : Trim ct.Name = ""
  · simp [hblank] at h
  · rw [if_neg hblank] at h
    unfold firstNamed at h
    refine ⟨List.mem_of_find?_eq_some h, ?_, hblank⟩
    have := List.find?_some h
    simpa using this

theorem configChoice_none (gs : Supplier) (ct : ConfigTemplate)
    (h : namedTemplate gs ct = none) : configChoice gs ct = ([], none) := by
  have h0 : namedTemplate (withTemplates gs []) ct = none := h
  rw [configChoice, installConfigTemplate_none (withTemplates gs []) ct h0]
  simp [withTemplates]

theorem configChoice_some (gs : Supplier) (ct : ConfigTemplate) (t : Template)
    (h : namedTemplate gs ct = some t) :
    configChoice gs ct =
      if Trim ct.ServiceInstanceName = "" ∧ t.Tags ≠ [] then
        ([], some "no service instance name defined for template in Kibana file")
      else ([boundTemplate ct t], none) := by
  have h0 : namedTemplate (withTemplates gs []) ct = some t := h
  rw [configChoice, installConfigTemplate_some (withTemplates gs []) ct t h0]
  by_cases hc : Trim ct.ServiceInstanceName = "" ∧ t.Tags ≠ []
  · simp [hc, withTemplates]
  · simp [hc, withTemplates, appendTemplate]

theorem configChoice_err (gs : Supplier) (ct : ConfigTemplate) :
    (configChoice gs ct).2 = (installConfigTemplate gs ct).2 := by
  have h := installConfigTemplate_frame gs gs.TemplatesToInstall ct
  rw [withTemplates_self] at h
  rw [h]

/-- When the body of the explicit branch fails on an entry. -/
theorem configChoice_fails_iff (gs : Supplier) (ct : ConfigTemplate) :
    (configChoice gs ct).2 ≠ none ↔
      ∃ t, namedTemplate gs ct = some t ∧ t.Tags ≠ [] ∧ Trim ct.ServiceInstanceName = "" := by
  cases h : namedTemplate gs ct with
  | none => simp [configChoice_none gs ct h]
  | some t =>
    rw [configChoice_some gs ct t h]
    by_cases hc : Trim ct.ServiceInstanceName = "" ∧ t.Tags ≠ []
    · simp [hc]
    · rw [if_neg hc]
      simp only [ne_eq, not_true_eq_false, Option.some.injEq, exists_eq_left', false_iff]
      intro hcon
      exact hc ⟨hcon.2, hcon.1⟩

theorem configChoice_failed (gs : Supplier) (ct : ConfigTemplate) (err : String)
    (herr : (configChoice gs ct).2 = some err) :
    (configChoice gs ct).1 = [] ∧
      err = "no service instance name defined for template in Kibana file" := by
  cases h : namedTemplate gs ct with
  | none => simp [configChoice_none gs ct h] at herr
  | some t =>
    rw [configChoice_some gs ct t h] at herr ⊢
    by_cases hc : Trim ct.ServiceInstanceName = "" ∧ t.Tags ≠ []
    · rw [if_pos hc] at herr ⊢
      exact ⟨rfl, (Option.some.inj herr).symm⟩
    · rw [if_neg hc] at herr
      simp at herr


/-! ## Claims on the explicit branch -/

theorem chooseAll_err_mem {α : Type} (choice : α → List Template × Option String)
    (xs : List α) (err : String) (h : (chooseAll choice xs).2 = some err) :
    ∃ x ∈ xs, (choice x).2 = some err := by
  induction xs with
  | nil => simp [chooseAll] at h
  | cons x rest ih =>
    simp only [chooseAll] at h
    cases hx : (choice x).2 with
    | none =>
      simp only [hx] at h
      obtain ⟨y, hy, hyerr⟩ := ih h
      exact ⟨y, List.mem_cons_of_mem _ hy, hyerr⟩
    | some e =>
      simp only [hx] at h
      exact ⟨x, List.mem_cons_self _ _, by rw [hx]; exact h⟩

theorem chooseAll_prefix {α : Type} (choice : α → List Template × Option String)
    (hfail : ∀ x err, (choice x).2 = some err → (choice x).1 = []) (xs : List α) :
    ∃ processed, processed <+: xs ∧ (∀ y ∈ processed, (choice y).2 = none) ∧
      (chooseAll choice xs).1 = processed.flatMap (fun y => (choice y).1) ∧
      ((chooseAll choice xs).2 = none → processed = xs) := by
  induction xs with
  | nil => exact ⟨[], List.prefix_refl _, by simp, by simp [chooseAll], fun _ => rfl⟩
  | cons x rest ih =>
    cases hx : (choice x).2 with
    | some e =>
      refine ⟨[], List.nil_prefix, by simp, ?_, ?_⟩
      · simp [chooseAll, hx, hfail x e hx]
      · simp [chooseAll, hx]
    | none =>
      obtain ⟨p, hp, hok, hsel, hall⟩ := ih
      refine ⟨x :: p, ?_, ?_, ?_, ?_⟩
      · obtain ⟨r, hr⟩ := hp
        exact ⟨r, by rw [← hr]; rfl⟩
      · intro y hy
        rcases List.mem_cons.mp hy with h | h
        · rw [h]; exact hx
        · exact hok y h
      · simp [chooseAll, hx, hsel, List.flatMap_cons]
      · intro hnone
        simp only [chooseAll, hx] at hnone
        rw [hall hnone]

theorem unbound_boundTemplate (ct : ConfigTemplate) (t : Template) :
    unbound (boundTemplate ct t) = unbound t := by
  unfold boundTemplate unbound
  split <;> rfl

theorem flatMap_config_forall2 (gs : Supplier) (cts : List ConfigTemplate)
    (hok : ∀ ct ∈ cts, (configChoice gs ct).2 = none) :
    List.Forall₂
      (fun ti ct => ∃ t, namedTemplate gs ct = some t ∧ unbound ti = unbound t)
      (cts.flatMap (fun ct => (configChoice gs ct).1))
      (cts.filter (fun ct => (namedTemplate gs ct).isSome)) := by
  induction cts with
  | nil => simp
  | cons ct rest ih =>
    have hrest := ih (fun y hy => hok y (List.mem_cons_of_mem _ hy))
    have hct := hok ct (List.mem_cons_self _ _)
    rw [List.flatMap_cons, List.filter_cons]
    cases h : namedTemplate gs ct with
    | none =>
      rw [configChoice_none gs ct h]
      simpa using hrest
    | some t =>
      rw [configChoice_some gs ct t h] at hct ⊢
      by_cases hc : Trim ct.ServiceInstanceName = "" ∧ t.Tags ≠ []
      · rw [if_pos hc] at hct
        simp at hct
      · rw [if_neg hc]
        simp only [Option.isSome_some, if_true, List.singleton_append]
        exact List.Forall₂.cons ⟨t, h, unbound_boundTemplate ct t⟩ hrest

theorem firstNamed_none_of_no_match (templateName : String) (ts : List Template)
    (h : ∀ t ∈ ts, templateName ≠ t.Name) : firstNamed templateName ts = none := by
  unfold firstNamed
  rw [List.find?_eq_none]
  intro t ht
  simpa using h t ht

theorem forEach_commute {α : Type} (body : Supplier → α → Supplier × Option String)
    (f : Supplier → Supplier)
    (hbody : ∀ g x, body (f g) x = (f (body g x).1, (body g x).2))
    (gs : Supplier) (xs : List α) :
    forEach body (f gs) xs = (f (forEach body gs xs).1, (forEach body gs xs).2) := by
  induction xs generalizing gs with
  | nil => rfl
  | cons x rest ih =>
    simp only [forEach, hbody]
    cases h : body gs x with
    | mk g1 r =>
      cases r with
      | none => exact ih g1
      | some err => rfl

theorem installNamedTemplate_services (gs : Supplier) (s : VcapServices) (ct : ConfigTemplate)
    (templateName : String) (ts : List Template) :
    installNamedTemplate (withServices gs s) ct templateName ts =
      (withServices (installNamedTemplate gs ct templateName ts).1 s,
        (installNamedTemplate gs ct templateName ts).2) := by
  induction ts with
  | nil => rfl
  | cons t rest ih =>
    simp only [installNamedTemplate]
    split
    · split
      · rfl
      · rfl
    · exact ih

theorem installConfigTemplate_services (s : VcapServices) (gs : Supplier)
    (ct : ConfigTemplate) :
    installConfigTemplate (withServices gs s) ct =
      (withServices (installConfigTemplate gs ct).1 s, (installConfigTemplate gs ct).2) := by
  unfold installConfigTemplate
  by_cases h : (Trim ct.Name).length = 0
  · simp [h]
  · simp only [h, if_false]
    exact installNamedTemplate_services gs s ct (Trim ct.Name) _

/-- The explicit branch does not read the bound services. -/
theorem selectTemplates_services (gs : Supplier) (s : VcapServices)
    (hexp : autoMode gs = false) :
    selectTemplates (withServices gs s) =
      (withServices (selectTemplates gs).1 s, (selectTemplates gs).2) := by
  have hexp2 : autoMode (withServices gs s) = false := hexp
  rw [selectTemplates, if_neg (by simp [hexp2]), selectTemplates, if_neg (by simp [hexp])]
  exact forEach_commute installConfigTemplate (fun g => withServices g s)
    (installConfigTemplate_services s) gs gs.KibanaConfig.ConfigTemplates

/-- C5, counterexample: in the first build the entry names the known template
`elasticsearch`, which has a required tag, and supplies the service-instance
name `" "`; the selection pass fails, although no entry has an empty
service-instance name.  In the second build no entry has the name of a known
template, the names being written with a blank in front, and the pass fails on
the entry ` elasticsearch`. -/
theorem blank_or_padded_entry_fails :
    autoMode buildExplicitBlank = false ∧
    (selectTemplates buildExplicitBlank).2 =
      some "no service instance name defined for template in Kibana file" ∧
    (∀ ct ∈ buildExplicitBlank.KibanaConfig.ConfigTemplates, ct.ServiceInstanceName ≠ "") ∧
    autoMode buildExplicitPaddedNames = false ∧
    (selectTemplates buildExplicitPaddedNames).2 =
      some "no service instance name defined for template in Kibana file" ∧
    (∀ ct ∈ buildExplicitPaddedNames.KibanaConfig.ConfigTemplates,
      ∀ t ∈ buildExplicitPaddedNames.TemplatesConfig.Templates, ct.Name ≠ t.Name) := by
  decide

/-- C5, as amended: in explicit mode the selection pass fails if and only if
some configuration entry names a known template that has at least one required
tag while the service-instance name of the entry is empty once the blanks
around it are removed; the error is then the one of the missing
service-instance name, so nothing else makes the pass fail.  An entry names the
first known template whose name is the name of the entry without the blanks
around it, that name not being empty. -/
theorem explicit_fails_iff (gs : Supplier) (hexp : autoMode gs = false) :
    ((selectTemplates gs).2 ≠ none ↔
      ∃ ct ∈ gs.KibanaConfig.ConfigTemplates, ∃ t,
        namedTemplate gs ct = some t ∧ t.Tags ≠ [] ∧ Trim ct.ServiceInstanceName = "") ∧
    (∀ err, (selectTemplates gs).2 = some err →
      err = "no service instance name defined for template in Kibana file") ∧
    (∀ ct t, namedTemplate gs ct = some t ↔
      Trim ct.Name ≠ "" ∧ firstNamed (Trim ct.Name) gs.TemplatesConfig.Templates = some t) ∧
    (∀ ct t, namedTemplate gs ct = some t →
      t ∈ gs.TemplatesConfig.Templates ∧ t.Name = Trim ct.Name) := by
  rw [selectTemplates_explicit gs hexp]
  refine ⟨?_, ?_, ?_, ?_⟩
  · rw [ne_eq, chooseAll_ok_iff]
    constructor
    · intro h
      by_contra hcon
      apply h
      intro ct hct
      by_contra hne
      exact hcon ⟨ct, hct, (configChoice_fails_iff gs ct).mp hne⟩
    · rintro ⟨ct, hct, hex⟩ hall
      exact (configChoice_fails_iff gs ct).mpr hex (hall ct hct)
  · intro err herr
    obtain ⟨ct, _, hcterr⟩ := chooseAll_err_mem _ _ err herr
    exact (configChoice_failed gs ct err hcterr).2
  · intro ct t
    unfold namedTemplate
    by_cases hblank : Trim ct.Name = ""
    · simp [hblank]
    · simp [hblank]
  · intro ct t h
    obtain ⟨hmem, hname, _⟩ := namedTemplate_spec gs ct t h
    exact ⟨hmem, hname.symm⟩

/-- C5, witness of the amended statement at the build with the blank
service-instance name. -/
theorem explicit_fails_iff_witness :
    autoMode buildExplicitBlank = false ∧ (selectTemplates buildExplicitBlank).2 ≠ none :=
  ⟨by decide,
    (explicit_fails_iff buildExplicitBlank (by decide)).1.mpr
      ⟨blankServiceEntry, by decide, elasticTemplate, by decide, by decide, by decide⟩⟩

/-- C6, counterexample: the entry supplies the service-instance name
`" my-es "` for a template with a required tag; the template is selected with
the service-instance name `"my-es"`, which is not the name supplied. -/
theorem padded_service_name_trimmed :
    autoMode buildExplicitPadded = false ∧
    namedTemplate buildExplicitPadded paddedServiceEntry = some elasticTemplate ∧
    elasticTemplate.Tags ≠ [] ∧ elasticTemplate.ServiceInstanceName = "" ∧
    paddedServiceEntry.ServiceInstanceName ≠ "" ∧
    (selectTemplates buildExplicitPadded).2 = none ∧
    (selectTemplates buildExplicitPadded).1.TemplatesToInstall =
      [{ elasticTemplate with ServiceInstanceName := "my-es" }] ∧
    (∀ ti ∈ (selectTemplates buildExplicitPadded).1.TemplatesToInstall,
      ti.ServiceInstanceName ≠ paddedServiceEntry.ServiceInstanceName) := by
  decide

/-- C6, as amended: in explicit mode, for a configuration entry that names a
known template carrying no service name: a template without required tags is
selected with an empty service-instance name, whatever name the entry supplies;
a template with required tags is selected, when the supplied name is not empty
once the blanks around it are removed, with that name without those blanks.
The selection does not read the bound services: with other bound services the
same templates are selected with the same names, and the same error returned. -/
theorem explicit_binding (gs : Supplier) (ct : ConfigTemplate) (t : Template)
    (hexp : autoMode gs = false) (hnamed : namedTemplate gs ct = some t)
    (hunbound : t.ServiceInstanceName = "") :
    (t.Tags = [] →
      installConfigTemplate gs ct =
        (appendTemplate gs { t with ServiceInstanceName := "" }, none)) ∧
    (t.Tags ≠ [] → Trim ct.ServiceInstanceName ≠ "" →
      installConfigTemplate gs ct =
        (appendTemplate gs { t with ServiceInstanceName := Trim ct.ServiceInstanceName },
          none)) ∧
    (∀ s, (selectTemplates (withServices gs s)).1.TemplatesToInstall =
        (selectTemplates gs).1.TemplatesToInstall ∧
      (selectTemplates (withServices gs s)).2 = (selectTemplates gs).2) := by
  have hstep := installConfigTemplate_some gs ct t hnamed
  refine ⟨?_, ?_, ?_⟩
  · intro htags
    rw [hstep, if_neg (by simp [htags])]
    unfold boundTemplate
    by_cases hname : Trim ct.ServiceInstanceName = ""
    · simp [hname]
    · have ht : t = { t with ServiceInstanceName := "" } := by
        cases t
        simp only [Template.mk.injEq, true_and]
        exact hunbound
      rw [if_pos ⟨hname, htags⟩, ← ht]
  · intro htags hname
    rw [hstep, if_neg (by simp [hname])]
    unfold boundTemplate
    rw [if_neg (by simp [htags])]
  · intro s
    rw [selectTemplates_services gs s hexp]
    exact ⟨rfl, rfl⟩

/-- C6, witness of the amended statement: the padded name is bound without its
blanks. -/
theorem explicit_binding_witness :
    installConfigTemplate buildExplicitPadded paddedServiceEntry =
      (appendTemplate buildExplicitPadded
        { elasticTemplate with ServiceInstanceName := "my-es" }, none) :=
  (explicit_binding buildExplicitPadded paddedServiceEntry elasticTemplate (by decide)
    (by decide) (by decide)).2.1 (by decide) (by decide)


/-- C7, counterexample: no entry of the build has the name of a known template,
the names being written with a blank in front.  Yet the default template
`monitoring` is selected, and the entry ` elasticsearch` makes
`InstallTemplates` fail. -/
theorem padded_entry_name_matches :
    autoMode buildExplicitPaddedNames = false ∧
    buildExplicitPaddedNames.TemplatesToInstall = [] ∧
    (∀ ct ∈ buildExplicitPaddedNames.KibanaConfig.ConfigTemplates,
      ∀ t ∈ buildExplicitPaddedNames.TemplatesConfig.Templates, ct.Name ≠ t.Name) ∧
    monitoringTemplate.IsDefault = true ∧
    (InstallTemplates (fun _ => none) buildExplicitPaddedNames).1.TemplatesToInstall =
      [monitoringTemplate] ∧
    (InstallTemplates (fun _ => none) buildExplicitPaddedNames).2 =
      some "no service instance name defined for template in Kibana file" := by
  decide

/-- C7, as amended: in explicit mode, starting from an empty
`TemplatesToInstall`, the selected templates stand one for one, in
configuration order, for the entries processed (all of them when the pass
succeeds) that name a known template, each being that known template up to its
service-instance name; so every selected template is a known template named by
an entry, a known template that no entry names, default or not, is not
selected, and an entry whose name matches no known template selects nothing and
does not fail.  Here an entry names the known template whose name is that of
the entry without the blanks around it. -/
theorem explicit_selects_named_templates (gs : Supplier) (hexp : autoMode gs = false)
    (hempty : gs.TemplatesToInstall = []) :
    (∃ processed, processed <+: gs.KibanaConfig.ConfigTemplates ∧
      ((selectTemplates gs).2 = none → processed = gs.KibanaConfig.ConfigTemplates) ∧
      List.Forall₂
        (fun ti ct => ∃ t, namedTemplate gs ct = some t ∧ unbound ti = unbound t)
        (selectTemplates gs).1.TemplatesToInstall
        (processed.filter (fun ct => (namedTemplate gs ct).isSome))) ∧
    (∀ ti ∈ (selectTemplates gs).1.TemplatesToInstall,
      ∃ ct ∈ gs.KibanaConfig.ConfigTemplates, ∃ t ∈ gs.TemplatesConfig.Templates,
        Trim ct.Name = t.Name ∧ unbound ti = unbound t) ∧
    (∀ t ∈ gs.TemplatesConfig.Templates,
      (∀ ct ∈ gs.KibanaConfig.ConfigTemplates, Trim ct.Name ≠ t.Name) →
      ∀ ti ∈ (selectTemplates gs).1.TemplatesToInstall, ti.Name ≠ t.Name) ∧
    (∀ ct, (∀ t ∈ gs.TemplatesConfig.Templates, Trim ct.Name ≠ t.Name) →
      installConfigTemplate gs ct = (gs, none)) := by
  have hsel : (selectTemplates gs).1.TemplatesToInstall =
      (chooseAll (configChoice gs) gs.KibanaConfig.ConfigTemplates).1 := by
    rw [selectTemplates_explicit gs hexp]
    simp [withTemplates, hempty]
  have herr : (selectTemplates gs).2 =
      (chooseAll (configChoice gs) gs.KibanaConfig.ConfigTemplates).2 := by
    rw [selectTemplates_explicit gs hexp]
  have hnamed : ∀ ti ∈ (selectTemplates gs).1.TemplatesToInstall,
      ∃ ct ∈ gs.KibanaConfig.ConfigTemplates, ∃ t ∈ gs.TemplatesConfig.Templates,
        Trim ct.Name = t.Name ∧ unbound ti = unbound t := by
    intro ti hti
    rw [hsel] at hti
    obtain ⟨ct, hct, hmem⟩ := chooseAll_mem _ _ ti hti
    cases h : namedTemplate gs ct with
    | none => simp [configChoice_none gs ct h] at hmem
    | some t =>
      rw [configChoice_some gs ct t h] at hmem
      by_cases hc : Trim ct.ServiceInstanceName = "" ∧ t.Tags ≠ []
      · simp [hc] at hmem
      · rw [if_neg hc] at hmem
        simp only [List.mem_singleton] at hmem
        obtain ⟨htmem, hname, _⟩ := namedTemplate_spec gs ct t h
        exact ⟨ct, hct, t, htmem, hname, by rw [hmem, unbound_boundTemplate]⟩
  refine ⟨?_, hnamed, ?_, ?_⟩
  · obtain ⟨p, hp, hok, hflat, hall⟩ := chooseAll_prefix (configChoice gs)
      (fun x err h => (configChoice_failed gs x err h).1) gs.KibanaConfig.ConfigTemplates
    refine ⟨p, hp, ?_, ?_⟩
    · intro hnone
      rw [herr] at hnone
      exact hall hnone
    · rw [hsel, hflat]
      exact flatMap_config_forall2 gs p hok
  · intro t _ hno ti hti hname
    obtain ⟨ct, hct, t1, _, hn1, hu⟩ := hnamed ti hti
    have h1 : ti.Name = t1.Name := by
      have h2 := congrArg Template.Name hu
      simpa [unbound] using h2
    exact hno ct hct (by rw [hn1, ← h1, hname])
  · intro ct hno
    apply installConfigTemplate_none
    unfold namedTemplate
    split
    · rfl
    · exact firstNamed_none_of_no_match _ _ hno

/-- C7, witness: of the three entries of the build, the first and the third
name known templates and select them in that order, the second names none; the
default template `monitoring` is named by no entry and not selected. -/
theorem explicit_selects_named_templates_witness :
    (selectTemplates buildExplicit).1.TemplatesToInstall =
      [plainTemplate, { elasticTemplate with ServiceInstanceName := "my-es" }] ∧
    ∀ ti ∈ (selectTemplates buildExplicit).1.TemplatesToInstall,
      ti.Name ≠ monitoringTemplate.Name :=
  ⟨by decide,
    (explicit_selects_named_templates buildExplicit (by decide) (by decide)).2.2.1
      monitoringTemplate (by decide) (by decide)⟩

/-! ## Claims on version resolution -/

theorem parseDependencyVersion_eq (gs : Supplier) (dependency : Dependency) (v : String) :
    parseDependencyVersion gs dependency v =
      FindMatchingVersion (wildcardedVersion dependency v)
        (gs.Manifest.AllDependencyVersions dependency.Name) := by
  unfold parseDependencyVersion
  simp only
  split
  · next err h => exact h.symm
  · next expandedVer h => exact h.symm

/-- Supporting C9: a version with fewer segments than the dependency asks for
gets the wildcard segment appended once, however many segments are missing. -/
theorem short_version_gets_one_wildcard (gs : Supplier) (dependency : Dependency) (v : String)
    (hshort : ((Split v).length : Int) < dependency.VersionParts) :
    wildcardedVersion dependency v = v ++ ".x" ∧
    parseDependencyVersion gs dependency v =
      FindMatchingVersion (v ++ ".x") (gs.Manifest.AllDependencyVersions dependency.Name) := by
  have h : wildcardedVersion dependency v = v ++ ".x" := by
    unfold wildcardedVersion
    rw [if_pos hshort]
  exact ⟨h, by rw [parseDependencyVersion_eq, h]⟩

/-- C9, counterexample: for the version `6` and three required parts the
pattern handed to the matcher is `6.x`, not `6.x.x`. -/
theorem wildcard_not_repeated :
    ((Split "6").length : Int) < kibanaDependency.VersionParts ∧
    wildcardedVersion kibanaDependency "6" = "6.x" ∧
    wildcardedVersion kibanaDependency "6" ≠ "6.x.x" := by
  decide

/-- C9, as amended: resolving the configured version `6` with three version
parts against the available versions `6.2.1`, `6.2.2`, `5.9.0` returns `6.2.2`;
the version has fewer segments than required, gets one wildcard segment
appended (it is matched as `6.x`), and the highest available version that
satisfies the pattern is returned. -/
theorem resolve_six_returns_highest_match :
    wildcardedVersion kibanaDependency "6" = "6.x" ∧
    (buildWithManifest.Manifest.AllDependencyVersions "kibana").filter
      (satisfiesPattern "6.x") = ["6.2.1", "6.2.2"] ∧
    parseDependencyVersion buildWithManifest kibanaDependency "6" = Except.ok "6.2.2" ∧
    SelectDependencyVersion buildWithManifest { kibanaDependency with ConfigVersion := "6" } =
      Except.ok "6.2.2" := by
  decide

theorem highestVersion_of_all_eq (c : String) (l : List String) (acc : Option String)
    (hall : ∀ v ∈ l, v = c) (hacc : acc = none ∨ acc = some c)
    (hne : l ≠ [] ∨ acc = some c) :
    l.foldl (fun best v =>
      match best with
      | none => some v
      | some b => if versionLt b v then some v else some b) acc = some c := by
  induction l generalizing acc with
  | nil =>
    rcases hne with h | h
    · exact absurd rfl h
    · simpa using h
  | cons v rest ih =>
    have hv : v = c := hall v (List.mem_cons_self _ _)
    have hrest : ∀ w ∈ rest, w = c := fun w hw => hall w (List.mem_cons_of_mem _ hw)
    rw [List.foldl_cons]
    apply ih _ hrest
    · right
      rcases hacc with h | h
      · rw [h, hv]
      · rw [h, hv]
        simp only
        split <;> rfl
    · right
      rcases hacc with h | h
      · rw [h, hv]
      · rw [h, hv]
        simp only
        split <;> rfl

theorem satisfiesPattern_plain (pattern version : String)
    (hplain : hasWildcard pattern = false) :
    satisfiesPattern pattern version = (version == pattern) := by
  unfold satisfiesPattern
  rw [hplain]
  rfl

/-- C10: for a dependency whose configured version is fully qualified (it is not
empty and has at least the required number of segments, none of them the
wildcard `x`) and occurs in the available versions, the pattern handed to the
matcher is the configured version itself, with no wildcard appended, and
`SelectDependencyVersion` returns the configured version unchanged, whatever
other versions are available. -/
theorem fully_qualified_version_unchanged (gs : Supplier) (dependency : Dependency)
    (hcfg : dependency.ConfigVersion ≠ "")
    (hfull : dependency.VersionParts ≤ ((Split dependency.ConfigVersion).length : Int))
    (hplain : hasWildcard dependency.ConfigVersion = false)
    (hmem : dependency.ConfigVersion ∈ gs.Manifest.AllDependencyVersions dependency.Name) :
    wildcardedVersion dependency dependency.ConfigVersion = dependency.ConfigVersion ∧
    SelectDependencyVersion gs dependency =
      FindMatchingVersion dependency.ConfigVersion
        (gs.Manifest.AllDependencyVersions dependency.Name) ∧
    SelectDependencyVersion gs dependency = Except.ok dependency.ConfigVersion := by
  have hw : wildcardedVersion dependency dependency.ConfigVersion =
      dependency.ConfigVersion := by
    unfold wildcardedVersion
    rw [if_neg (by omega)]
  have hsel : SelectDependencyVersion gs dependency =
      FindMatchingVersion dependency.ConfigVersion
        (gs.Manifest.AllDependencyVersions dependency.Name) := by
    unfold SelectDependencyVersion
    rw [if_neg hcfg, parseDependencyVersion_eq, hw]
  refine ⟨hw, hsel, ?_⟩
  rw [hsel]
  have hfilter : ∀ v ∈ (gs.Manifest.AllDependencyVersions dependency.Name).filter
      (satisfiesPattern dependency.ConfigVersion), v = dependency.ConfigVersion := by
    intro v hv
    have hvsat := (List.mem_filter.mp hv).2
    rw [satisfiesPattern_plain _ _ hplain] at hvsat
    simpa using hvsat
  have hne : (gs.Manifest.AllDependencyVersions dependency.Name).filter
      (satisfiesPattern dependency.ConfigVersion) ≠ [] := by
    intro hnil
    have hsat : satisfiesPattern dependency.ConfigVersion dependency.ConfigVersion = true := by
      rw [satisfiesPattern_plain _ _ hplain]
      simp
    have : dependency.ConfigVersion ∈ (gs.Manifest.AllDependencyVersions dependency.Name).filter
        (satisfiesPattern dependency.ConfigVersion) :=
      List.mem_filter.mpr ⟨hmem, hsat⟩
    rw [hnil] at this
    simp at this
  have hhigh : highestVersion ((gs.Manifest.AllDependencyVersions dependency.Name).filter
      (satisfiesPattern dependency.ConfigVersion)) = some dependency.ConfigVersion :=
    highestVersion_of_all_eq dependency.ConfigVersion _ none hfilter (Or.inl rfl) (Or.inl hne)
  have hall : ((gs.Manifest.AllDependencyVersions dependency.Name).filter
      (satisfiesPattern dependency.ConfigVersion)).all
        (fun c => c == dependency.ConfigVersion || versionLt c dependency.ConfigVersion) =
      true := by
    rw [List.all_eq_true]
    intro v hv
    rw [hfilter v hv]
    simp
  unfold FindMatchingVersion
  rw [hhigh]
  simp only
  rw [if_pos hall]

/-- C10, witness: the version `6.2.1`, configured in full, is returned as it
is, although the longer version `6.2.1.1` and the higher version `6.2.2` are
available as well. -/
theorem fully_qualified_version_unchanged_witness :
    SelectDependencyVersion buildWithMixedManifest
      { kibanaDependency with ConfigVersion := "6.2.1" } = Except.ok "6.2.1" :=
  (fully_qualified_version_unchanged buildWithMixedManifest
    { kibanaDependency with ConfigVersion := "6.2.1" } (by decide) (by decide)
    (by decide) (by decide)).2.2


/-! ## Claims on `NewDependency` -/

/-- C11: for a dependency with an empty configured version, when the manifest
has the default version `d` for its name, `SelectDependencyVersion` returns what
`parseDependencyVersion` returns for `d`, which is what it returns for the same
dependency with the configured version `d`; when the manifest has no default
for its name, `SelectDependencyVersion` returns the error of the manifest and
`NewDependency` returns that error with a dependency that has no version, no
directory name and no location, whatever versions are available. -/
theorem empty_config_version_uses_default (gs : Supplier) (dependency : Dependency)
    (hempty : dependency.ConfigVersion = "") :
    (∀ d, gs.Manifest.DefaultVersion dependency.Name = Except.ok d →
      SelectDependencyVersion gs dependency = parseDependencyVersion gs dependency d ∧
      SelectDependencyVersion gs dependency =
        SelectDependencyVersion gs { dependency with ConfigVersion := d }) ∧
    (∀ err, gs.Manifest.DefaultVersion dependency.Name = Except.error err →
      SelectDependencyVersion gs dependency = Except.error err ∧
      NewDependency gs dependency.Name dependency.VersionParts "" =
        ({ Name := dependency.Name, VersionParts := dependency.VersionParts }, some err)) := by
  constructor
  · intro d hd
    have h1 : SelectDependencyVersion gs dependency = parseDependencyVersion gs dependency d := by
      unfold SelectDependencyVersion
      rw [if_pos hempty, hd]
    refine ⟨h1, ?_⟩
    by_cases hdempty : d = ""
    · have hsame : ({ dependency with ConfigVersion := d } : Dependency) = dependency := by
        cases dependency
        simp only [Dependency.mk.injEq, true_and, and_true]
        rw [hdempty]
        exact hempty.symm
      rw [hsame]
    · rw [h1]
      unfold SelectDependencyVersion
      simp only [hdempty, if_false]
      rfl
  · intro err herr
    have h1 : SelectDependencyVersion gs dependency = Except.error err := by
      unfold SelectDependencyVersion
      rw [if_pos hempty, herr]
    refine ⟨h1, ?_⟩
    have h2 : SelectDependencyVersion gs
        { Name := dependency.Name, VersionParts := dependency.VersionParts,
          ConfigVersion := "" } = Except.error err := by
      unfold SelectDependencyVersion
      simp only [if_true, herr]
    unfold NewDependency
    simp only [h2]

/-- C11, witness: the manifest of the build has no default version; resolving
`kibana` without a configured version fails, whatever versions it lists. -/
theorem empty_config_version_uses_default_witness :
    SelectDependencyVersion buildWithManifest kibanaDependency =
        Except.error "no default version" ∧
    NewDependency buildWithManifest "kibana" 3 "" =
      ({ Name := "kibana", VersionParts := 3 }, some "no default version") :=
  (empty_config_version_uses_default buildWithManifest kibanaDependency rfl).2
    "no default version" rfl

theorem splitSlash_ne_nil (cs : List Char) : splitSlash cs ≠ [] := by
  cases cs with
  | nil => simp [splitSlash]
  | cons c rest =>
    unfold splitSlash
    split
    · simp
    · split <;> simp

theorem splitSlash_no_slash (cs : List Char) : ∀ seg ∈ splitSlash cs, '/' ∉ seg := by
  induction cs with
  | nil => simp [splitSlash]
  | cons c rest ih =>
    intro seg hseg
    unfold splitSlash at hseg
    by_cases hc : c = '/'
    · rw [if_pos hc] at hseg
      rcases List.mem_cons.mp hseg with h | h
      · rw [h]; simp
      · exact ih seg h
    · rw [if_neg hc] at hseg
      cases hsplit : splitSlash rest with
      | nil => exact absurd hsplit (splitSlash_ne_nil rest)
      | cons s segs =>
        rw [hsplit] at hseg ih
        simp only at hseg
        rcases List.mem_cons.mp hseg with h | h
        · rw [h]
          intro hmem
          rcases List.mem_cons.mp hmem with h1 | h1
          · exact hc h1.symm
          · exact ih s (List.mem_cons_self _ _) h1
        · exact ih seg (List.mem_cons_of_mem _ h)

theorem cleanComponents_mem (rooted : Bool) (xs out : List String) (c : String)
    (hc : c ∈ cleanComponents rooted xs out) :
    c ∈ out ∨ c = ".." ∨ (c ∈ xs ∧ c ≠ "") := by
  induction xs generalizing out with
  | nil => exact Or.inl hc
  | cons x rest ih =>
    unfold cleanComponents at hc
    have lift : (c ∈ out ∨ c = ".." ∨ (c ∈ rest ∧ c ≠ "")) →
        (c ∈ out ∨ c = ".." ∨ (c ∈ x :: rest ∧ c ≠ "")) := by
      rintro (h | h | h)
      · exact Or.inl h
      · exact Or.inr (Or.inl h)
      · exact Or.inr (Or.inr ⟨List.mem_cons_of_mem _ h.1, h.2⟩)
    by_cases h1 : x = "" ∨ x = "."
    · rw [if_pos h1] at hc
      exact lift (ih out hc)
    · rw [if_neg h1] at hc
      by_cases h2 : x = ".."
      · rw [if_pos h2] at hc
        cases hlast : out.getLast? with
        | none =>
          rw [hlast] at hc
          simp only at hc
          cases rooted with
          | true => exact lift (ih out hc)
          | false =>
            rcases ih _ hc with h | h | h
            · rcases List.mem_append.mp h with h3 | h3
              · exact Or.inl h3
              · exact Or.inr (Or.inl (List.mem_singleton.mp h3))
            · exact Or.inr (Or.inl h)
            · exact Or.inr (Or.inr ⟨List.mem_cons_of_mem _ h.1, h.2⟩)
        | some top =>
          rw [hlast] at hc
          simp only at hc
          by_cases h3 : top = ".."
          · rw [if_pos h3] at hc
            rcases ih _ hc with h | h | h
            · rcases List.mem_append.mp h with h4 | h4
              · exact Or.inl h4
              · exact Or.inr (Or.inl (List.mem_singleton.mp h4))
            · exact Or.inr (Or.inl h)
            · exact Or.inr (Or.inr ⟨List.mem_cons_of_mem _ h.1, h.2⟩)
          · rw [if_neg h3] at hc
            rcases ih _ hc with h | h | h
            · exact Or.inl (List.dropLast_subset _ h)
            · exact Or.inr (Or.inl h)
            · exact Or.inr (Or.inr ⟨List.mem_cons_of_mem _ h.1, h.2⟩)
      · rw [if_neg h2] at hc
        rcases ih _ hc with h | h | h
        · rcases List.mem_append.mp h with h3 | h3
          · exact Or.inl h3
          · have hcx : c = x := List.mem_singleton.mp h3
            refine Or.inr (Or.inr ⟨by rw [hcx]; exact List.mem_cons_self _ _, ?_⟩)
            rw [hcx]
            exact fun h4 => h1 (Or.inl h4)
        · exact Or.inr (Or.inl h)
        · exact Or.inr (Or.inr ⟨List.mem_cons_of_mem _ h.1, h.2⟩)

theorem isRooted_append (a b : String) (ha : a ≠ "") : isRooted (a ++ b) = isRooted a := by
  unfold isRooted
  rw [String.data_append]
  cases hd : a.data with
  | nil =>
    exfalso
    apply ha
    cases a
    simp only at hd
    rw [hd]
  | cons c rest => rfl

theorem isRooted_joinSlash (c : String) (rest : List String) (hc : c ≠ "") :
    isRooted (joinSlash (c :: rest)) = isRooted c := by
  cases rest with
  | nil => rfl
  | cons d more =>
    unfold joinSlash
    rw [String.append_assoc, isRooted_append c _ hc]

theorem joinSlash_ne_empty (c : String) (rest : List String) (hc : c ≠ "") :
    joinSlash (c :: rest) ≠ "" := by
  intro h
  have hdata : (joinSlash (c :: rest)).data = [] := by rw [h]
  cases rest with
  | nil => exact hc h
  | cons d more =>
    unfold joinSlash at hdata
    rw [String.data_append, String.data_append] at hdata
    have : c.data = [] := by
      cases hcd : c.data with
      | nil => rfl
      | cons x xs => rw [hcd] at hdata; simp at hdata
    apply hc
    cases c
    simp only at this
    rw [this]

/-- The cleaning of a path leaves it rooted or not as it was. -/
theorem isRooted_Clean (path : String) (hpath : path ≠ "") :
    isRooted (Clean path) = isRooted path := by
  unfold Clean
  rw [if_neg hpath]
  simp only
  cases hr : isRooted path with
  | true =>
    simp only [if_true]
    rfl
  | false =>
    simp only [Bool.false_eq_true, if_false]
    cases hout : cleanComponents false ((splitSlash path.data).map String.mk) [] with
    | nil => simp only [if_true]; decide
    | cons c rest =>
      simp only [reduceCtorEq, if_false]
      have hmem : c ∈ cleanComponents false ((splitSlash path.data).map String.mk) [] := by
        rw [hout]; exact List.mem_cons_self _ _
      have hc : c ≠ "" ∧ isRooted c = false := by
        rcases cleanComponents_mem false _ [] c hmem with h | h | h
        · simp at h
        · rw [h]; exact ⟨by decide, by decide⟩
        · refine ⟨h.2, ?_⟩
          obtain ⟨seg, hseg, hsegc⟩ := List.mem_map.mp h.1
          have hno := splitSlash_no_slash path.data seg hseg
          rw [← hsegc]
          unfold isRooted
          cases seg with
          | nil => rfl
          | cons x xs =>
            have hx : x ≠ '/' := fun hx => hno (by rw [hx]; exact List.mem_cons_self _ _)
            simp [hx]
      rw [isRooted_joinSlash c rest hc.1]
      exact hc.2

/-- A join that starts with an element that is not empty is rooted or not as
that element is. -/
theorem isRooted_Join (root : String) (rest : List String) (hroot : root ≠ "") :
    isRooted (Join (root :: rest)) = isRooted root := by
  unfold Join
  have hdrop : (root :: rest).dropWhile (fun e => e == "") = root :: rest := by
    rw [List.dropWhile_cons]
    simp [hroot]
  rw [hdrop]
  simp only
  rw [isRooted_Clean _ (joinSlash_ne_empty root rest hroot), isRooted_joinSlash root rest hroot]

theorem NewDependency_ok (gs : Supplier) (name : String) (versionParts : Int)
    (configVersion : String) (d : Dependency)
    (hnew : NewDependency gs name versionParts configVersion = (d, none)) :
    ∃ version,
      SelectDependencyVersion gs
        { Name := name, VersionParts := versionParts, ConfigVersion := configVersion } =
          Except.ok version ∧
      d = { Name := name, VersionParts := versionParts, ConfigVersion := configVersion,
            Version := version, DirName := name ++ "-" ++ version,
            RuntimeLocation := Join [gs.Stager.DepsIdx, name ++ "-" ++ version],
            StagingLocation := Join [gs.Stager.DepDir, name ++ "-" ++ version] } := by
  unfold NewDependency at hnew
  simp only at hnew
  cases hsel : SelectDependencyVersion gs
      { Name := name, VersionParts := versionParts, ConfigVersion := configVersion } with
  | error err =>
    rw [hsel] at hnew
    simp at hnew
  | ok version =>
    rw [hsel] at hnew
    simp only [Prod.mk.injEq, and_true] at hnew
    exact ⟨version, rfl, hnew.symm⟩

/-- C12, counterexample: with the deps index and the dependency directory the
same path, the dependency is created and its two locations are the same. -/
theorem equal_roots_give_equal_locations :
    (NewDependency buildWithEqualRoots "kibana" 3 "6.2.2").2 = none ∧
    (NewDependency buildWithEqualRoots "kibana" 3 "6.2.2").1.DirName = "kibana-6.2.2" ∧
    (NewDependency buildWithEqualRoots "kibana" 3 "6.2.2").1.RuntimeLocation =
      "0/kibana-6.2.2" ∧
    (NewDependency buildWithEqualRoots "kibana" 3 "6.2.2").1.RuntimeLocation =
      (NewDependency buildWithEqualRoots "kibana" 3 "6.2.2").1.StagingLocation := by
  decide

/-- C12, as amended: for a dependency that `NewDependency` creates without
error, `DirName` is `Name`, a dash and `Version`, `RuntimeLocation` is the deps
index joined with `DirName` and `StagingLocation` is the dependency directory
joined with `DirName`; the two locations are distinct when the dependency
directory is an absolute path and the deps index is a relative one that is not
empty. -/
theorem new_dependency_locations (gs : Supplier) (name : String) (versionParts : Int)
    (configVersion : String) (d : Dependency)
    (hnew : NewDependency gs name versionParts configVersion = (d, none)) :
    d.Name = name ∧
    d.DirName = d.Name ++ "-" ++ d.Version ∧
    d.RuntimeLocation = Join [gs.Stager.DepsIdx, d.DirName] ∧
    d.StagingLocation = Join [gs.Stager.DepDir, d.DirName] ∧
    d.RuntimeLocation = EvalRuntimeLocation gs d ∧
    d.StagingLocation = EvalStagingLocation gs d ∧
    (isRooted gs.Stager.DepDir = true → gs.Stager.DepsIdx ≠ "" →
      isRooted gs.Stager.DepsIdx = false → d.RuntimeLocation ≠ d.StagingLocation) := by
  obtain ⟨version, _, hd⟩ := NewDependency_ok gs name versionParts configVersion d hnew
  rw [hd]
  refine ⟨rfl, rfl, rfl, rfl, rfl, rfl, ?_⟩
  intro hdir hidx hrel heq
  simp only at heq
  have hdirne : gs.Stager.DepDir ≠ "" := by
    intro h
    rw [h] at hdir
    exact absurd hdir (by decide)
  have h1 := isRooted_Join gs.Stager.DepsIdx [name ++ "-" ++ version] hidx
  have h2 := isRooted_Join gs.Stager.DepDir [name ++ "-" ++ version] hdirne
  rw [heq, h2, hdir, hrel] at h1
  exact absurd h1 (by decide)

/-- C12, witness of the amended statement: with the deps index `0` and the
dependency directory `/tmp/deps/0` the two locations differ. -/
theorem new_dependency_locations_witness :
    (NewDependency buildWithRoots "kibana" 3 "6").1.DirName = "kibana-6.2.2" ∧
    (NewDependency buildWithRoots "kibana" 3 "6").1.RuntimeLocation ≠
      (NewDependency buildWithRoots "kibana" 3 "6").1.StagingLocation :=
  ⟨by decide,
    (new_dependency_locations buildWithRoots "kibana" 3 "6"
      (NewDependency buildWithRoots "kibana" 3 "6").1 (by decide)).2.2.2.2.2.2
      (by decide) (by decide) (by decide)⟩


/-! ## The dependency cache -/

theorem mapGet_mapSet_self (m : List (String × String)) (k v : String) :
    mapGet (mapSet m k v) k = some v := by
  induction m with
  | nil => simp [mapSet, mapGet]
  | cons e rest ih =>
    obtain ⟨k0, v0⟩ := e
    unfold mapSet
    by_cases h : k0 = k
    · simp [h, mapGet]
    · simp [h, mapGet, ih]

theorem mapGet_mapSet_other (m : List (String × String)) (k v k1 : String) (h : k1 ≠ k) :
    mapGet (mapSet m k v) k1 = mapGet m k1 := by
  induction m with
  | nil =>
    have h2 : ¬ k = k1 := fun h3 => h h3.symm
    simp [mapSet, mapGet, h2]
  | cons e rest ih =>
    obtain ⟨k0, v0⟩ := e
    unfold mapSet
    by_cases h0 : k0 = k
    · have h2 : ¬ k = k1 := fun h3 => h h3.symm
      have h3 : ¬ k0 = k1 := by rw [h0]; exact h2
      simp [h0, mapGet, h2]
    · rw [if_neg h0]
      by_cases h1 : k0 = k1
      · simp [mapGet, h1]
      · simp [mapGet, h1, ih]

theorem mapSet_of_mapGet (m : List (String × String)) (k v : String)
    (h : mapGet m k = some v) : mapSet m k v = m := by
  induction m with
  | nil => simp [mapGet] at h
  | cons e rest ih =>
    obtain ⟨k0, v0⟩ := e
    unfold mapGet at h
    unfold mapSet
    by_cases h0 : k0 = k
    · rw [if_pos h0] at h
      rw [if_pos h0, ← h0, Option.some.inj h]
    · rw [if_neg h0] at h
      rw [if_neg h0, ih h]

theorem mapSet_keys_of_mem (m : List (String × String)) (k v : String)
    (h : k ∈ m.map Prod.fst) : (mapSet m k v).map Prod.fst = m.map Prod.fst := by
  induction m with
  | nil => simp at h
  | cons e rest ih =>
    obtain ⟨k0, v0⟩ := e
    unfold mapSet
    by_cases h0 : k0 = k
    · simp [h0]
    · have hrest : k ∈ rest.map Prod.fst := by
        rcases List.mem_cons.mp h with h1 | h1
        · exact absurd h1.symm h0
        · exact h1
      simp [h0, ih hrest]

theorem mapSet_keys (m : List (String × String)) (k v : String) :
    (mapSet m k v).map Prod.fst =
      if k ∈ m.map Prod.fst then m.map Prod.fst else m.map Prod.fst ++ [k] := by
  induction m with
  | nil => simp [mapSet]
  | cons e rest ih =>
    obtain ⟨k0, v0⟩ := e
    unfold mapSet
    by_cases h0 : k0 = k
    · simp [h0]
    · have h1 : ¬ k = k0 := fun h => h0 h.symm
      simp only [h0, if_false, List.map_cons, ih, List.mem_cons, h1, false_or]
      split <;> simp

theorem mapGet_isSome_of_mem (m : List (String × String)) (k : String)
    (h : k ∈ m.map Prod.fst) : ∃ v, mapGet m k = some v := by
  induction m with
  | nil => simp at h
  | cons e rest ih =>
    obtain ⟨k0, v0⟩ := e
    unfold mapGet
    by_cases h0 : k0 = k
    · exact ⟨v0, by rw [if_pos h0]⟩
    · rw [if_neg h0]
      rcases List.mem_cons.mp h with h1 | h1
      · exact absurd h1.symm h0
      · exact ih h1

/-- The loop of `InstallDependency`, as two folds over the keys: one over the
state map and one over the file system. -/
theorem removeOtherVersions_eq (removable : String → Bool) (depCacheDir : String)
    (dependency : Dependency) (keys : List String) (m : List (String × String))
    (fs : FileSystem) :
    removeOtherVersions removable depCacheDir dependency keys (m, fs) =
      (keys.foldl (fun m1 k => if isOtherVersion dependency k then mapSet m1 k "deleted" else m1) m,
        keys.foldl (fun fs1 k =>
          if isOtherVersion dependency k then RemoveAll removable fs1 (Join [depCacheDir, k])
          else fs1) fs) := by
  induction keys generalizing m fs with
  | nil => rfl
  | cons k rest ih =>
    unfold removeOtherVersions
    by_cases h : k ≠ dependency.DirName ∧ HasPrefix k (dependency.Name ++ "-") = true
    · have hk : isOtherVersion dependency k = true := by
        simp only [isOtherVersion, Bool.and_eq_true, bne_iff_ne]
        exact h
      rw [if_pos h, ih]
      simp [hk]
    · have hk : isOtherVersion dependency k = false := by
        cases hv : isOtherVersion dependency k with
        | false => rfl
        | true =>
          exfalso
          apply h
          simp only [isOtherVersion, Bool.and_eq_true, bne_iff_ne] at hv
          exact hv
      rw [if_neg h, ih]
      simp [hk]

theorem markDeleted_other (dependency : Dependency) (keys : List String)
    (m : List (String × String)) (k : String)
    (h : isOtherVersion dependency k = false ∨ k ∉ keys) :
    mapGet (keys.foldl
      (fun m1 k1 => if isOtherVersion dependency k1 then mapSet m1 k1 "deleted" else m1) m) k =
      mapGet m k := by
  induction keys generalizing m with
  | nil => rfl
  | cons k1 rest ih =>
    rw [List.foldl_cons]
    have hrest : isOtherVersion dependency k = false ∨ k ∉ rest := by
      rcases h with h | h
      · exact Or.inl h
      · exact Or.inr (fun hmem => h (List.mem_cons_of_mem _ hmem))
    rw [ih _ hrest]
    by_cases hk1 : isOtherVersion dependency k1 = true
    · rw [if_pos hk1]
      apply mapGet_mapSet_other
      intro hkk
      rcases h with h | h
      · rw [hkk, hk1] at h
        exact absurd h (by decide)
      · exact h (by rw [hkk]; exact List.mem_cons_self _ _)
    · rw [if_neg hk1]

theorem markDeleted_deleted (dependency : Dependency) (keys : List String)
    (m : List (String × String)) (k : String)
    (hk : isOtherVersion dependency k = true) (hmem : k ∈ keys) :
    mapGet (keys.foldl
      (fun m1 k1 => if isOtherVersion dependency k1 then mapSet m1 k1 "deleted" else m1) m) k =
      some "deleted" := by
  induction keys generalizing m with
  | nil => simp at hmem
  | cons k1 rest ih =>
    rw [List.foldl_cons]
    by_cases hrest : k ∈ rest
    · exact ih _ hrest
    · have hkk : k = k1 := by
        rcases List.mem_cons.mp hmem with h | h
        · exact h
        · exact absurd h hrest
      rw [markDeleted_other dependency rest _ k (Or.inr hrest), ← hkk, if_pos hk]
      exact mapGet_mapSet_self m k "deleted"

theorem markDeleted_keys (dependency : Dependency) (keys : List String)
    (m : List (String × String)) (hsub : ∀ k ∈ keys, k ∈ m.map Prod.fst) :
    (keys.foldl
      (fun m1 k1 => if isOtherVersion dependency k1 then mapSet m1 k1 "deleted" else m1)
      m).map Prod.fst = m.map Prod.fst := by
  induction keys generalizing m with
  | nil => rfl
  | cons k1 rest ih =>
    rw [List.foldl_cons]
    have hk1 : k1 ∈ m.map Prod.fst := hsub k1 (List.mem_cons_self _ _)
    have hstep : (if isOtherVersion dependency k1 = true then mapSet m k1 "deleted"
        else m).map Prod.fst = m.map Prod.fst := by
      split
      · exact mapSet_keys_of_mem m k1 "deleted" hk1
      · rfl
    rw [ih _ (by rw [hstep]; exact fun k hk => hsub k (List.mem_cons_of_mem _ hk)), hstep]

theorem RemoveAll_removeCalls (removable : String → Bool) (fs : FileSystem) (path : String) :
    (RemoveAll removable fs path).removeCalls = fs.removeCalls ++ [path] :=
  rfl

theorem removeCalls_foldl (removable : String → Bool) (depCacheDir : String)
    (test : String → Bool) (keys : List String) (fs : FileSystem) :
    (keys.foldl (fun fs1 k =>
        if test k then RemoveAll removable fs1 (Join [depCacheDir, k]) else fs1) fs).removeCalls =
      fs.removeCalls ++ (keys.filter test).map (fun k => Join [depCacheDir, k]) := by
  induction keys generalizing fs with
  | nil => simp
  | cons k rest ih =>
    rw [List.foldl_cons, ih, List.filter_cons]
    by_cases hk : test k = true
    · simp [hk, RemoveAll]
    · simp [hk]

/-- What a call of `InstallDependency` that succeeds leaves behind: the state
map with the other versions marked and the dependency in use, and the record of
the removals it has issued. -/
theorem InstallDependency_ok (removable : String → Bool)
    (installWithCache : String → String → String → String → List String →
      List String × Option String)
    (gs : Supplier) (fs : FileSystem) (dependency : Dependency)
    (gs1 : Supplier) (fs1 : FileSystem)
    (h : InstallDependency removable installWithCache gs fs dependency = (gs1, fs1, none)) :
    gs1.CachedDeps =
      mapSet ((gs.CachedDeps.map Prod.fst).foldl
        (fun m1 k1 => if isOtherVersion dependency k1 then mapSet m1 k1 "deleted" else m1)
        gs.CachedDeps) dependency.DirName "in use" ∧
    gs1.DepCacheDir = gs.DepCacheDir ∧
    gs1.KibanaConfig = gs.KibanaConfig ∧
    fs1.removeCalls = fs.removeCalls ++ issuedRemovals gs dependency := by
  unfold InstallDependency at h
  simp only [removeOtherVersions_eq] at h
  split at h
  · simp at h
  · next paths2 hinst =>
    simp only [Prod.mk.injEq, and_true] at h
    obtain ⟨hgs, hfs⟩ := h
    refine ⟨by rw [← hgs], by rw [← hgs], by rw [← hgs], ?_⟩
    rw [← hfs]
    unfold issuedRemovals
    by_cases hno : gs.KibanaConfig.Buildpack.NoCache = true
    · rw [if_pos hno, if_pos hno, RemoveAll_removeCalls]
      simp only [removeCalls_foldl, List.append_assoc]
    · rw [if_neg hno, if_neg hno]
      simp only [removeCalls_foldl, List.append_nil]

/-- Supporting C13: after `InstallDependency` has succeeded, the directory name
of the dependency is in use; every other cached entry that starts with the name
of the dependency and a dash is marked deleted, and `os.RemoveAll` has been
called for it; every other entry has the state it had. -/
theorem install_dependency_states (removable : String → Bool)
    (installWithCache : String → String → String → String → List String →
      List String × Option String)
    (gs : Supplier) (fs : FileSystem) (dependency : Dependency)
    (gs1 : Supplier) (fs1 : FileSystem)
    (h : InstallDependency removable installWithCache gs fs dependency = (gs1, fs1, none)) :
    mapGet gs1.CachedDeps dependency.DirName = some "in use" ∧
    (∀ k ∈ gs.CachedDeps.map Prod.fst, isOtherVersion dependency k = true →
      mapGet gs1.CachedDeps k = some "deleted" ∧
      Join [gs.DepCacheDir, k] ∈ fs1.removeCalls) ∧
    (∀ k, k ≠ dependency.DirName → isOtherVersion dependency k = false →
      mapGet gs1.CachedDeps k = mapGet gs.CachedDeps k) := by
  obtain ⟨hmap, _, _, hcalls⟩ :=
    InstallDependency_ok removable installWithCache gs fs dependency gs1 fs1 h
  refine ⟨?_, ?_, ?_⟩
  · rw [hmap]
    exact mapGet_mapSet_self _ _ _
  · intro k hk hother
    have hne : k ≠ dependency.DirName := by
      simp only [isOtherVersion, Bool.and_eq_true, bne_iff_ne] at hother
      exact hother.1
    constructor
    · rw [hmap, mapGet_mapSet_other _ _ _ _ hne]
      exact markDeleted_deleted dependency _ _ k hother hk
    · rw [hcalls]
      apply List.mem_append_right
      unfold issuedRemovals
      apply List.mem_append_left
      exact List.mem_map.mpr ⟨k, List.mem_filter.mpr ⟨hk, hother⟩, rfl⟩
  · intro k hne hother
    rw [hmap, mapGet_mapSet_other _ _ _ _ hne]
    exact markDeleted_other dependency _ _ k (Or.inl hother)

/-- C13, at the failing input: the cache holds `kibana-6.2.1` and entries of
`kibana-plugins`, `x-pack`, `gte` and `jq`.  Installing `kibana-6.2.2` succeeds,
marks `kibana-6.2.1` deleted and leaves `x-pack`, `gte` and `jq` as they were,
but the entry `kibana-plugins-6.2.2`, which belongs to another dependency, is
marked deleted and removed from the cache directory as well. -/
theorem kibana_install_deletes_kibana_plugins :
    (InstallDependency alwaysRemovable installsIntoSlot buildWithCache cacheFiles
      kibana622).2.2 = none ∧
    (InstallDependency alwaysRemovable installsIntoSlot buildWithCache cacheFiles
      kibana622).1.CachedDeps =
      [("kibana-6.2.1", "deleted"), ("kibana-plugins-6.2.2", "deleted"), ("x-pack-6.2.2", ""),
       ("gte-3.1.0", "in use"), ("jq-1.5.0", "in use"), ("kibana-6.2.2", "in use")] ∧
    mapGet buildWithCache.CachedDeps "kibana-plugins-6.2.2" = some "" ∧
    mapGet (InstallDependency alwaysRemovable installsIntoSlot buildWithCache cacheFiles
      kibana622).1.CachedDeps "kibana-plugins-6.2.2" = some "deleted" ∧
    (InstallDependency alwaysRemovable installsIntoSlot buildWithCache cacheFiles
      kibana622).2.1.removeCalls =
      ["/cache/dependencies/kibana-6.2.1", "/cache/dependencies/kibana-plugins-6.2.2"] ∧
    "/cache/dependencies/kibana-plugins-6.2.2" ∉
      (InstallDependency alwaysRemovable installsIntoSlot buildWithCache cacheFiles
        kibana622).2.1.paths := by
  decide


theorem mapGet_none_of_not_mem (m : List (String × String)) (k : String)
    (h : k ∉ m.map Prod.fst) : mapGet m k = none := by
  induction m with
  | nil => rfl
  | cons e rest ih =>
    obtain ⟨k0, v0⟩ := e
    unfold mapGet
    have h0 : ¬ k0 = k := fun h1 => h (by rw [← h1]; exact List.mem_cons_self _ _)
    rw [if_neg h0]
    exact ih (fun hmem => h (List.mem_cons_of_mem _ hmem))

theorem markDeleted_fixed (dependency : Dependency) (keys : List String)
    (m : List (String × String))
    (h : ∀ k ∈ keys, isOtherVersion dependency k = true → mapGet m k = some "deleted") :
    keys.foldl
      (fun m1 k1 => if isOtherVersion dependency k1 then mapSet m1 k1 "deleted" else m1) m =
      m := by
  induction keys with
  | nil => rfl
  | cons k rest ih =>
    rw [List.foldl_cons]
    have hstep : (if isOtherVersion dependency k = true then mapSet m k "deleted" else m) = m := by
      split
      · next hk => exact mapSet_of_mapGet m k "deleted" (h k (List.mem_cons_self _ _) hk)
      · rfl
    rw [hstep]
    exact ih (fun k1 hk1 => h k1 (List.mem_cons_of_mem _ hk1))

theorem isOtherVersion_self (dependency : Dependency) :
    isOtherVersion dependency dependency.DirName = false := by
  simp [isOtherVersion]

/-- The removals that a second call of `InstallDependency` issues are those of
the first. -/
theorem issuedRemovals_after (gs gs1 : Supplier) (dependency : Dependency)
    (hmap : gs1.CachedDeps =
      mapSet ((gs.CachedDeps.map Prod.fst).foldl
        (fun m1 k1 => if isOtherVersion dependency k1 then mapSet m1 k1 "deleted" else m1)
        gs.CachedDeps) dependency.DirName "in use")
    (hdir : gs1.DepCacheDir = gs.DepCacheDir) (hcfg : gs1.KibanaConfig = gs.KibanaConfig) :
    issuedRemovals gs1 dependency = issuedRemovals gs dependency := by
  unfold issuedRemovals
  rw [hdir, hcfg, hmap, mapSet_keys, markDeleted_keys dependency _ _ (fun k hk => hk)]
  split
  · rfl
  · rw [List.filter_append]
    simp [isOtherVersion_self]

/-- Supporting C14: the removal of a path that is not there, with nothing below
it, leaves the paths of the file system as they are. -/
theorem RemoveAll_absent (removable : String → Bool) (fs : FileSystem) (path : String)
    (habsent : ∀ p ∈ fs.paths, p ≠ path ∧ HasPrefix p (path ++ "/") = false) :
    (RemoveAll removable fs path).paths = fs.paths := by
  unfold RemoveAll
  simp only
  split
  · apply List.filter_eq_self.mpr
    intro p hp
    obtain ⟨h1, h2⟩ := habsent p hp
    simp [h1, h2]
  · rfl

/-- C14, counterexample: `gte-3.1.0` is installed twice with `gte-3.0.0` in the
cache.  The first call marks `gte-3.0.0` deleted and removes it; the second call
calls `os.RemoveAll` for `gte-3.0.0` once more. -/
theorem second_install_repeats_removal :
    afterFirstGte.2.2 = none ∧ afterSecondGte.2.2 = none ∧
    mapGet afterFirstGte.1.CachedDeps "gte-3.0.0" = some "deleted" ∧
    afterFirstGte.2.1.removeCalls = ["/cache/dependencies/gte-3.0.0"] ∧
    afterSecondGte.2.1.removeCalls =
      ["/cache/dependencies/gte-3.0.0", "/cache/dependencies/gte-3.0.0"] ∧
    afterSecondGte.1.CachedDeps = afterFirstGte.1.CachedDeps := by
  decide

/-- C14, as amended: after two calls of `InstallDependency` for the same
dependency that succeed, the state map is the one after the first call; among
the directory name of the dependency and the entries that start with its name
and a dash, the directory name is the one entry in use; and the second call
issues the same removals as the first, once more. -/
theorem install_twice_same_state (removable : String → Bool)
    (installWithCache : String → String → String → String → List String →
      List String × Option String)
    (gs : Supplier) (fs : FileSystem) (dependency : Dependency)
    (gs1 gs2 : Supplier) (fs1 fs2 : FileSystem)
    (h1 : InstallDependency removable installWithCache gs fs dependency = (gs1, fs1, none))
    (h2 : InstallDependency removable installWithCache gs1 fs1 dependency = (gs2, fs2, none)) :
    gs2.CachedDeps = gs1.CachedDeps ∧
    (∀ k, k = dependency.DirName ∨ isOtherVersion dependency k = true →
      (mapGet gs2.CachedDeps k = some "in use" ↔ k = dependency.DirName)) ∧
    fs1.removeCalls = fs.removeCalls ++ issuedRemovals gs dependency ∧
    fs2.removeCalls = fs1.removeCalls ++ issuedRemovals gs dependency := by
  obtain ⟨hmap1, hdir1, hcfg1, hcalls1⟩ :=
    InstallDependency_ok removable installWithCache gs fs dependency gs1 fs1 h1
  obtain ⟨hmap2, _, _, hcalls2⟩ :=
    InstallDependency_ok removable installWithCache gs1 fs1 dependency gs2 fs2 h2
  obtain ⟨hinuse, hdeleted, _⟩ :=
    install_dependency_states removable installWithCache gs fs dependency gs1 fs1 h1
  have hkeys1 : ∀ k ∈ gs1.CachedDeps.map Prod.fst,
      k ∈ gs.CachedDeps.map Prod.fst ∨ k = dependency.DirName := by
    intro k hk
    rw [hmap1, mapSet_keys, markDeleted_keys dependency _ _ (fun k hk => hk)] at hk
    split at hk
    · exact Or.inl hk
    · rcases List.mem_append.mp hk with h | h
      · exact Or.inl h
      · exact Or.inr (List.mem_singleton.mp h)
  have hother : ∀ k, isOtherVersion dependency k = true →
      mapGet gs1.CachedDeps k ≠ some "in use" := by
    intro k hk
    by_cases hmem : k ∈ gs.CachedDeps.map Prod.fst
    · rw [(hdeleted k hmem hk).1]
      decide
    · have hne : k ≠ dependency.DirName := by
        intro hkd
        rw [hkd, isOtherVersion_self] at hk
        exact absurd hk (by decide)
      have hnot : k ∉ gs1.CachedDeps.map Prod.fst := by
        intro hk1
        rcases hkeys1 k hk1 with h | h
        · exact hmem h
        · exact hne h
      rw [mapGet_none_of_not_mem _ _ hnot]
      simp
  have hsame : gs2.CachedDeps = gs1.CachedDeps := by
    rw [hmap2, markDeleted_fixed dependency _ gs1.CachedDeps]
    · exact mapSet_of_mapGet _ _ _ hinuse
    · intro k hk hkother
      have hne : k ≠ dependency.DirName := by
        intro hkd
        rw [hkd, isOtherVersion_self] at hkother
        exact absurd hkother (by decide)
      rcases hkeys1 k hk with h | h
      · exact (hdeleted k h hkother).1
      · exact absurd h hne
  refine ⟨hsame, ?_, hcalls1, ?_⟩
  · intro k hk
    rw [hsame]
    constructor
    · intro hin
      rcases hk with h | h
      · exact h
      · exact absurd hin (hother k h)
    · intro hkd
      rw [hkd]
      exact hinuse
  · rw [hcalls2, issuedRemovals_after gs gs1 dependency hmap1 hdir1 hcfg1]

/-- C14, witness of the amended statement at the two installations of
`gte-3.1.0`. -/
theorem install_twice_same_state_witness :
    afterSecondGte.1.CachedDeps = afterFirstGte.1.CachedDeps ∧
    afterSecondGte.2.1.removeCalls =
      afterFirstGte.2.1.removeCalls ++ issuedRemovals buildWithOldGte gte310 :=
  have e1 : afterFirstGte.2.2 = none := by decide
  have e2 : afterSecondGte.2.2 = none := by decide
  have h := install_twice_same_state alwaysRemovable installsIntoSlot buildWithOldGte
    oldGteFiles gte310 afterFirstGte.1 afterSecondGte.1 afterFirstGte.2.1 afterSecondGte.2.1
    (congrArg (fun e => (afterFirstGte.1, afterFirstGte.2.1, e)) e1)
    (congrArg (fun e => (afterSecondGte.1, afterSecondGte.2.1, e)) e2)
  ⟨h.1, h.2.2.2⟩


/-! ## Paths of the entries of a directory -/

theorem splitSlash_cons_of_ne (c : Char) (cs s : List Char) (segs : List (List Char))
    (hc : c ≠ '/') (h : splitSlash cs = s :: segs) :
    splitSlash (c :: cs) = (c :: s) :: segs := by
  simp [splitSlash, hc, h]

theorem splitSlash_append_sep (a b : List Char) :
    splitSlash (a ++ '/' :: b) = splitSlash a ++ splitSlash b := by
  induction a with
  | nil => simp [splitSlash]
  | cons c rest ih =>
    by_cases hc : c = '/'
    · simp [splitSlash, hc, ih]
    · cases hsplit : splitSlash rest with
      | nil => exact absurd hsplit (splitSlash_ne_nil rest)
      | cons s segs =>
        have h2 : splitSlash (rest ++ '/' :: b) = s :: (segs ++ splitSlash b) := by
          rw [ih, hsplit]
          rfl
        rw [List.cons_append, splitSlash_cons_of_ne c _ s _ hc h2,
          splitSlash_cons_of_ne c rest s segs hc hsplit]
        rfl

theorem splitSlash_of_no_slash (k : List Char) (h : '/' ∉ k) : splitSlash k = [k] := by
  induction k with
  | nil => rfl
  | cons c rest ih =>
    have hc : c ≠ '/' := fun hc => h (by rw [hc]; exact List.mem_cons_self _ _)
    have hrest : '/' ∉ rest := fun hmem => h (List.mem_cons_of_mem _ hmem)
    simp only [splitSlash, if_neg hc, ih hrest]

theorem cleanComponents_append_name (rooted : Bool) (xs out : List String) (k : String)
    (h1 : k ≠ "") (h2 : k ≠ ".") (h3 : k ≠ "..") :
    cleanComponents rooted (xs ++ [k]) out = cleanComponents rooted xs out ++ [k] := by
  induction xs generalizing out with
  | nil => simp [cleanComponents, h1, h2, h3]
  | cons x rest ih =>
    simp only [List.cons_append, cleanComponents]
    split
    · exact ih out
    · split
      · split
        · split
          · exact ih _
          · exact ih _
        · split
          · exact ih _
          · exact ih _
      · exact ih _

theorem joinSlash_snoc (s : List String) : ∃ Y, ∀ k, joinSlash (s ++ [k]) = Y ++ k := by
  induction s with
  | nil => exact ⟨"", fun k => by simp [joinSlash]⟩
  | cons c rest ih =>
    obtain ⟨Y, hY⟩ := ih
    refine ⟨c ++ "/" ++ Y, fun k => ?_⟩
    have hne : rest ++ [k] ≠ [] := by simp
    cases hrk : rest ++ [k] with
    | nil => exact absurd hrk hne
    | cons d more =>
      rw [List.cons_append, hrk]
      unfold joinSlash
      rw [← hrk, hY k]
      simp [String.append_assoc]

theorem string_eq_of_data (a b : String) (h : a.data = b.data) : a = b := by
  cases a
  cases b
  simp only at h
  rw [h]

theorem isEntryName_spec (k : String) (h : isEntryName k = true) :
    k ≠ "" ∧ k ≠ "." ∧ k ≠ ".." ∧ '/' ∉ k.data := by
  simp only [isEntryName, Bool.and_eq_true, bne_iff_ne, ne_eq, List.all_eq_true] at h
  obtain ⟨⟨⟨h1, h2⟩, h3⟩, h4⟩ := h
  exact ⟨h1, h2, h3, fun hmem => h4 '/' hmem rfl⟩

theorem isRooted_of_no_slash (k : String) (h : '/' ∉ k.data) : isRooted k = false := by
  unfold isRooted
  cases hd : k.data with
  | nil => rfl
  | cons c rest =>
    have hc : c ≠ '/' := fun hc => h (by rw [hd, hc]; exact List.mem_cons_self _ _)
    simp [hc]

/-- The path of an entry of a directory is a prefix that the directory decides,
followed by the name of the entry. -/
theorem Join_entry (dir : String) :
    ∃ X, ∀ k, isEntryName k = true → Join [dir, k] = X ++ k := by
  by_cases hdir : dir = ""
  · refine ⟨"", fun k hk => ?_⟩
    obtain ⟨h1, h2, h3, h4⟩ := isEntryName_spec k hk
    have hroot := isRooted_of_no_slash k h4
    have hsplit : (splitSlash k.data).map String.mk = [k] := by
      rw [splitSlash_of_no_slash k.data h4]
      rfl
    rw [hdir]
    simp only [Join, List.dropWhile_cons, beq_self_eq_true, if_true, beq_iff_eq, h1, if_false,
      joinSlash, Clean, hroot, hsplit, cleanComponents_append_name false [] [] k h1 h2 h3,
      List.nil_append, Bool.false_eq_true, cleanComponents]
    simp [h2, h3, joinSlash]
  · obtain ⟨Y, hY⟩ := joinSlash_snoc
      (cleanComponents (isRooted dir) ((splitSlash dir.data).map String.mk) [])
    refine ⟨(if isRooted dir then "/" else "") ++ Y, fun k hk => ?_⟩
    obtain ⟨h1, h2, h3, h4⟩ := isEntryName_spec k hk
    have hjoin : joinSlash [dir, k] = dir ++ "/" ++ k := rfl
    have hne : dir ++ "/" ++ k ≠ "" := by
      rw [← hjoin]
      exact joinSlash_ne_empty dir [k] hdir
    have hroot : isRooted (dir ++ "/" ++ k) = isRooted dir := by
      rw [String.append_assoc]
      exact isRooted_append dir _ hdir
    have hsplit : (splitSlash (dir ++ "/" ++ k).data).map String.mk =
        (splitSlash dir.data).map String.mk ++ [k] := by
      have hdata : (dir ++ "/" ++ k).data = dir.data ++ '/' :: k.data := by
        rw [String.data_append, String.data_append]
        simp
      rw [hdata, splitSlash_append_sep, splitSlash_of_no_slash k.data h4, List.map_append]
      rfl
    have hdrop : [dir, k].dropWhile (fun e => e == "") = [dir, k] := by
      rw [List.dropWhile_cons]
      simp [hdir]
    unfold Join
    rw [hdrop]
    simp only
    rw [hjoin]
    unfold Clean
    rw [if_neg hne]
    simp only [hroot, hsplit, cleanComponents_append_name _ _ _ k h1 h2 h3, hY]
    cases isRooted dir with
    | true => simp [String.append_assoc]
    | false =>
      have hout : cleanComponents false ((splitSlash dir.data).map String.mk) [] ++ [k] ≠ [] := by
        simp
      simp [hout]

theorem Join_entry_inj (dir k1 k2 : String) (h1 : isEntryName k1 = true)
    (h2 : isEntryName k2 = true) (h : Join [dir, k1] = Join [dir, k2]) : k1 = k2 := by
  obtain ⟨X, hX⟩ := Join_entry dir
  rw [hX k1 h1, hX k2 h2] at h
  have hdata := congrArg String.data h
  rw [String.data_append, String.data_append] at hdata
  exact string_eq_of_data k1 k2 (List.append_cancel_left hdata)

theorem Join_entry_not_below (dir k1 k2 : String) (h1 : isEntryName k1 = true)
    (h2 : isEntryName k2 = true) :
    HasPrefix (Join [dir, k1]) (Join [dir, k2] ++ "/") = false := by
  obtain ⟨X, hX⟩ := Join_entry dir
  rw [hX k1 h1, hX k2 h2]
  cases hp : HasPrefix (X ++ k1) (X ++ k2 ++ "/") with
  | false => rfl
  | true =>
    exfalso
    unfold HasPrefix at hp
    rw [List.isPrefixOf_iff_prefix, String.data_append, String.data_append,
      String.data_append, List.append_assoc, List.prefix_append_right_inj] at hp
    obtain ⟨t, ht⟩ := hp
    have hmem : '/' ∈ k1.data := by
      rw [← ht]
      simp
    exact (isEntryName_spec k1 h1).2.2.2 hmem


/-! ## Claim on `RemoveUnusedDependencies` -/

theorem RemoveAll_subset (removable : String → Bool) (fs : FileSystem) (path p : String)
    (h : p ∈ (RemoveAll removable fs path).paths) : p ∈ fs.paths := by
  unfold RemoveAll at h
  simp only at h
  split at h
  · exact (List.mem_filter.mp h).1
  · exact h

theorem RemoveAll_gone (removable : String → Bool) (fs : FileSystem) (path : String)
    (h : removable path = true) : path ∉ (RemoveAll removable fs path).paths := by
  unfold RemoveAll
  simp only [h, if_true]
  intro hmem
  have := (List.mem_filter.mp hmem).2
  simp at this

theorem RemoveAll_kept (removable : String → Bool) (fs : FileSystem) (path p : String)
    (hp : p ∈ fs.paths) (hne : p ≠ path) (hbelow : HasPrefix p (path ++ "/") = false) :
    p ∈ (RemoveAll removable fs path).paths := by
  unfold RemoveAll
  simp only
  split
  · exact List.mem_filter.mpr ⟨hp, by simp [hne, hbelow]⟩
  · exact hp

theorem sweep_calls (removable : String → Bool) (dir : String)
    (entries : List (String × String)) (fs : FileSystem) :
    (entries.foldl (fun fs1 entry =>
        if entry.2 = "" then RemoveAll removable fs1 (Join [dir, entry.1]) else fs1)
      fs).removeCalls =
      fs.removeCalls ++
        (entries.filter (fun entry => entry.2 == "")).map (fun entry => Join [dir, entry.1]) := by
  induction entries generalizing fs with
  | nil => simp
  | cons e rest ih =>
    rw [List.foldl_cons, ih, List.filter_cons]
    by_cases he : e.2 = ""
    · rw [if_pos he, RemoveAll_removeCalls]
      simp [he]
    · rw [if_neg he]
      simp [he]

theorem sweep_subset (removable : String → Bool) (dir : String)
    (entries : List (String × String)) (fs : FileSystem) (p : String)
    (h : p ∈ (entries.foldl (fun fs1 entry =>
        if entry.2 = "" then RemoveAll removable fs1 (Join [dir, entry.1]) else fs1)
      fs).paths) : p ∈ fs.paths := by
  induction entries generalizing fs with
  | nil => exact h
  | cons e rest ih =>
    rw [List.foldl_cons] at h
    have h1 := ih _ h
    split at h1
    · exact RemoveAll_subset removable fs _ p h1
    · exact h1

theorem sweep_gone (removable : String → Bool) (hall : ∀ p, removable p = true) (dir : String)
    (entries : List (String × String)) (fs : FileSystem) (e : String × String)
    (he : e ∈ entries) (hstate : e.2 = "") :
    Join [dir, e.1] ∉ (entries.foldl (fun fs1 entry =>
        if entry.2 = "" then RemoveAll removable fs1 (Join [dir, entry.1]) else fs1)
      fs).paths := by
  induction entries generalizing fs with
  | nil => simp at he
  | cons e1 rest ih =>
    rw [List.foldl_cons]
    rcases List.mem_cons.mp he with h | h
    · intro hmem
      have h1 := sweep_subset removable dir rest _ _ hmem
      rw [← h, if_pos hstate] at h1
      exact RemoveAll_gone removable fs _ (hall _) h1
    · exact ih _ h

theorem sweep_kept (removable : String → Bool) (dir : String)
    (entries : List (String × String)) (fs : FileSystem) (p : String) (hp : p ∈ fs.paths)
    (hclear : ∀ e ∈ entries, e.2 = "" →
      p ≠ Join [dir, e.1] ∧ HasPrefix p (Join [dir, e.1] ++ "/") = false) :
    p ∈ (entries.foldl (fun fs1 entry =>
        if entry.2 = "" then RemoveAll removable fs1 (Join [dir, entry.1]) else fs1)
      fs).paths := by
  induction entries generalizing fs with
  | nil => exact hp
  | cons e rest ih =>
    rw [List.foldl_cons]
    apply ih
    · split
      · next hstate =>
        obtain ⟨h1, h2⟩ := hclear e (List.mem_cons_self _ _) hstate
        exact RemoveAll_kept removable fs _ p hp h1 h2
      · exact hp
    · exact fun e1 he1 => hclear e1 (List.mem_cons_of_mem _ he1)

theorem value_unique_of_nodup_keys (m : List (String × String))
    (hnodup : (m.map Prod.fst).Nodup) (e1 e2 : String × String) (h1 : e1 ∈ m) (h2 : e2 ∈ m)
    (hkey : e1.1 = e2.1) : e1 = e2 := by
  induction m with
  | nil => simp at h1
  | cons e rest ih =>
    rw [List.map_cons, List.nodup_cons] at hnodup
    rcases List.mem_cons.mp h1 with a1 | a1 <;> rcases List.mem_cons.mp h2 with a2 | a2
    · rw [a1, a2]
    · exfalso
      apply hnodup.1
      rw [← a1, hkey]
      exact List.mem_map.mpr ⟨e2, a2, rfl⟩
    · exfalso
      apply hnodup.1
      rw [← a2, ← hkey]
      exact List.mem_map.mpr ⟨e1, a1, rfl⟩
    · exact ih hnodup.2 a1 a2

/-- C15, counterexample: at the end of the build the entry `jq-1.5.0` is still
unreferenced and its removal fails.  `RemoveUnusedDependencies` returns no
error, and the directory of `jq-1.5.0` remains in the cache although it is not
in use. -/
theorem failed_removal_leaves_unreferenced_entry :
    (RemoveUnusedDependencies neverRemovable buildAtEnd endFiles).2.2 = none ∧
    mapGet buildAtEnd.CachedDeps "jq-1.5.0" = some "" ∧
    Join [buildAtEnd.DepCacheDir, "jq-1.5.0"] = "/cache/dependencies/jq-1.5.0" ∧
    "/cache/dependencies/jq-1.5.0" ∈
      (RemoveUnusedDependencies neverRemovable buildAtEnd endFiles).2.1.paths ∧
    (RemoveUnusedDependencies neverRemovable buildAtEnd endFiles).2.1.removeCalls =
      ["/cache/dependencies/jq-1.5.0"] := by
  decide

/-- C15, as amended: `RemoveUnusedDependencies` calls `os.RemoveAll` for the
slots of exactly the entries whose state is still `""`, in the order of the
map, creates no path, leaves the state map as it is and returns no error,
whether the removals succeed or not.  With entries that are names of directory
entries, each listed once, no removal is issued for an entry in use and its
directory stays.  When the removals succeed, the directories of the
unreferenced entries are gone; and if every entry of the cache directory was
the slot of an entry listed as unreferenced or in use, every entry of the cache
directory that remains is the slot of an entry in use. -/
theorem sweep_removes_unreferenced (removable : String → Bool) (gs : Supplier)
    (fs : FileSystem) :
    (RemoveUnusedDependencies removable gs fs).2.2 = none ∧
    (RemoveUnusedDependencies removable gs fs).1.CachedDeps = gs.CachedDeps ∧
    (RemoveUnusedDependencies removable gs fs).2.1.removeCalls =
      fs.removeCalls ++ unreferencedSlots gs ∧
    (∀ p ∈ (RemoveUnusedDependencies removable gs fs).2.1.paths, p ∈ fs.paths) ∧
    ((∀ e ∈ gs.CachedDeps, isEntryName e.1 = true) → (gs.CachedDeps.map Prod.fst).Nodup →
      ∀ e ∈ gs.CachedDeps, e.2 = "in use" →
        Join [gs.DepCacheDir, e.1] ∉ unreferencedSlots gs ∧
        (Join [gs.DepCacheDir, e.1] ∈ fs.paths →
          Join [gs.DepCacheDir, e.1] ∈ (RemoveUnusedDependencies removable gs fs).2.1.paths)) ∧
    ((∀ p, removable p = true) →
      (∀ e ∈ gs.CachedDeps, e.2 = "" →
        Join [gs.DepCacheDir, e.1] ∉ (RemoveUnusedDependencies removable gs fs).2.1.paths) ∧
      ((∀ p ∈ fs.paths, isCacheEntry gs p →
          ∃ e ∈ gs.CachedDeps, p = Join [gs.DepCacheDir, e.1] ∧ (e.2 = "" ∨ e.2 = "in use")) →
        ∀ p ∈ (RemoveUnusedDependencies removable gs fs).2.1.paths, isCacheEntry gs p →
          ∃ e ∈ gs.CachedDeps, p = Join [gs.DepCacheDir, e.1] ∧ e.2 = "in use")) := by
  refine ⟨rfl, rfl, ?_, ?_, ?_, ?_⟩
  · exact sweep_calls removable gs.DepCacheDir gs.CachedDeps fs
  · exact fun p hp => sweep_subset removable gs.DepCacheDir gs.CachedDeps fs p hp
  · intro hnames hnodup e he hstate
    have hdiff : ∀ e1 ∈ gs.CachedDeps, e1.2 = "" → e.1 ≠ e1.1 := by
      intro e1 he1 h1 hkey
      have := value_unique_of_nodup_keys gs.CachedDeps hnodup e e1 he he1 hkey
      rw [this, h1] at hstate
      exact absurd hstate (by decide)
    constructor
    · intro hmem
      unfold unreferencedSlots at hmem
      obtain ⟨e1, he1, hpath⟩ := List.mem_map.mp hmem
      obtain ⟨he1mem, he1state⟩ := List.mem_filter.mp he1
      have h1 : e1.2 = "" := by simpa using he1state
      exact hdiff e1 he1mem h1
        (Join_entry_inj gs.DepCacheDir e.1 e1.1 (hnames e he) (hnames e1 he1mem) hpath.symm)
    · intro hp
      apply sweep_kept removable gs.DepCacheDir gs.CachedDeps fs _ hp
      intro e1 he1 h1
      exact ⟨fun hpath => hdiff e1 he1 h1
          (Join_entry_inj gs.DepCacheDir e.1 e1.1 (hnames e he) (hnames e1 he1) hpath),
        Join_entry_not_below gs.DepCacheDir e.1 e1.1 (hnames e he) (hnames e1 he1)⟩
  · intro hall
    refine ⟨fun e he hstate => sweep_gone removable hall gs.DepCacheDir gs.CachedDeps fs e he hstate,
      ?_⟩
    intro hinv p hp hentry
    have hp0 := sweep_subset removable gs.DepCacheDir gs.CachedDeps fs p hp
    obtain ⟨e, he, hpath, hstate⟩ := hinv p hp0 hentry
    refine ⟨e, he, hpath, ?_⟩
    rcases hstate with h | h
    · exfalso
      rw [hpath] at hp
      exact sweep_gone removable hall gs.DepCacheDir gs.CachedDeps fs e he h hp
    · exact h

/-- C15, witness: at the end of the build, with removals that succeed, the
directory of the unreferenced `jq-1.5.0` is gone and every path that remains is
the slot of an entry in use. -/
theorem sweep_removes_unreferenced_witness :
    (RemoveUnusedDependencies alwaysRemovable buildAtEnd endFiles).2.1.paths =
      ["/cache/dependencies/kibana-6.2.2"] ∧
    ∀ p ∈ (RemoveUnusedDependencies alwaysRemovable buildAtEnd endFiles).2.1.paths,
      isCacheEntry buildAtEnd p →
      ∃ e ∈ buildAtEnd.CachedDeps, p = Join [buildAtEnd.DepCacheDir, e.1] ∧ e.2 = "in use" :=
  ⟨by decide,
    ((sweep_removes_unreferenced alwaysRemovable buildAtEnd endFiles).2.2.2.2.2
      (fun _ => rfl)).2
      (fun p hp _ =>
        (by decide : ∀ p ∈ endFiles.paths, ∃ e ∈ buildAtEnd.CachedDeps,
          p = Join [buildAtEnd.DepCacheDir, e.1] ∧ (e.2 = "" ∨ e.2 = "in use")) p hp)⟩


/-! ## Claims on the plugin sources -/

theorem GetLocalPlugin_of_find_some (key : String) (names : List String) (f : String)
    (h : names.find? (startsWithPlugin key) = some f) : GetLocalPlugin key names = f := by
  induction names with
  | nil => simp at h
  | cons n rest ih =>
    rw [List.find?_cons] at h
    unfold GetLocalPlugin
    cases hn : startsWithPlugin key n with
    | true =>
      rw [hn] at h
      have hp : HasPrefix n key = true := hn
      rw [if_pos hp]
      exact Option.some.inj h
    | false =>
      rw [hn] at h
      have hp : ¬ HasPrefix n key = true := by
        intro hp
        have : startsWithPlugin key n = true := hp
        rw [hn] at this
        exact absurd this (by decide)
      rw [if_neg hp]
      exact ih h

theorem GetLocalPlugin_of_find_none (key : String) (names : List String)
    (h : names.find? (startsWithPlugin key) = none) : GetLocalPlugin key names = "" := by
  induction names with
  | nil => rfl
  | cons n rest ih =>
    rw [List.find?_cons] at h
    unfold GetLocalPlugin
    cases hn : startsWithPlugin key n with
    | true =>
      rw [hn] at h
      simp at h
    | false =>
      rw [hn] at h
      have hp : ¬ HasPrefix n key = true := by
        intro hp
        have : startsWithPlugin key n = true := hp
        rw [hn] at this
        exact absurd this (by decide)
      rw [if_neg hp]
      exact ih h

theorem find_none_of_no_match (key : String) (names : List String)
    (h : ∀ n ∈ names, HasPrefix n key = false) :
    names.find? (startsWithPlugin key) = none := by
  rw [List.find?_eq_none]
  intro n hn
  simp [startsWithPlugin, h n hn]

/-- The sources handed to the plugin installer by the loop of
`InstallKibanaPlugins`: for the plugins processed, all of them when no
installation fails, the source chosen for the plugin, rewritten by
`installerSource`. -/
theorem installPlugins_handed (kibanaPlugin : String → Option String) (gs : Supplier)
    (x d u keys handed : List String) :
    ∃ processed, processed <+: keys ∧
      (installPlugins kibanaPlugin gs x d u keys handed).1 =
        handed ++ processed.map (fun key => installerSource (pluginToInstall gs key x d u)) ∧
      ((installPlugins kibanaPlugin gs x d u keys handed).2 = none → processed = keys) := by
  induction keys generalizing handed with
  | nil => exact ⟨[], List.prefix_refl _, by simp [installPlugins], fun _ => rfl⟩
  | cons key rest ih =>
    unfold installPlugins
    simp only
    cases hk : kibanaPlugin (installerSource (pluginToInstall gs key x d u)) with
    | some err =>
      refine ⟨[key], ?_, by simp, by simp⟩
      exact ⟨rest, rfl⟩
    | none =>
      obtain ⟨p, hp, hsel, hall⟩ := ih (handed ++ [installerSource (pluginToInstall gs key x d u)])
      refine ⟨key :: p, ?_, ?_, ?_⟩
      · obtain ⟨r, hr⟩ := hp
        exact ⟨r, by rw [← hr]; rfl⟩
      · simp only
        rw [hsel]
        simp
      · intro hnone
        simp only at hnone
        rw [hall hnone]

/-- C16: for every plugin name and every three listings of directories (no
directory holds an entry with an empty name), the source chosen for the plugin
is the first name of the listing of the `x-pack` bundle that starts with the
plugin name, joined to the staging location of that bundle; without such a name
there, the first such name of the listing of the `kibana-plugins` bundle, joined
to its staging location, whatever the directory of the user holds; and without
such a name in either, the first such name of the directory of the user, joined
to the directory `plugins` of the build directory.  `InstallKibanaPlugins`
hands these sources, rewritten by `installerSource`, to the plugin installer. -/
theorem plugin_source_priority (gs : Supplier) (key : String) (x d u : List String)
    (hx : "" ∉ x) (hd : "" ∉ d) (hu : "" ∉ u) :
    (∀ f, x.find? (startsWithPlugin key) = some f →
      pluginToInstall gs key x d u = Join [gs.XPack.StagingLocation, f]) ∧
    (∀ f, x.find? (startsWithPlugin key) = none → d.find? (startsWithPlugin key) = some f →
      pluginToInstall gs key x d u = Join [gs.KibanaPlugins.StagingLocation, f]) ∧
    (∀ f, x.find? (startsWithPlugin key) = none → d.find? (startsWithPlugin key) = none →
      u.find? (startsWithPlugin key) = some f →
      pluginToInstall gs key x d u = Join [gs.Stager.BuildDir, "plugins", f]) ∧
    (∀ readDir kibanaPlugin, ∃ processed, processed <+: gs.PluginsToInstall.map Prod.fst ∧
      ((InstallKibanaPlugins readDir kibanaPlugin gs).2 = none →
        processed = gs.PluginsToInstall.map Prod.fst) ∧
      (InstallKibanaPlugins readDir kibanaPlugin gs).1 =
        processed.map (fun key1 => installerSource (pluginToInstall gs key1
          (ReadLocalPlugins (readDir gs.XPack.StagingLocation))
          (ReadLocalPlugins (readDir gs.KibanaPlugins.StagingLocation))
          (ReadLocalPlugins (readDir (gs.Stager.BuildDir ++ "/plugins/")))))) := by
  have hne : ∀ (l : List String) (f : String), "" ∉ l →
      l.find? (startsWithPlugin key) = some f → f ≠ "" := by
    intro l f hl hf hempty
    rw [hempty] at hf
    exact hl (List.mem_of_find?_eq_some hf)
  refine ⟨?_, ?_, ?_, ?_⟩
  · intro f hf
    unfold pluginToInstall
    simp only [GetLocalPlugin_of_find_some key x f hf]
    rw [if_pos (hne x f hx hf)]
  · intro f hxn hf
    unfold pluginToInstall
    simp only [GetLocalPlugin_of_find_none key x hxn, GetLocalPlugin_of_find_some key d f hf]
    rw [if_neg (by simp), if_pos (hne d f hd hf)]
  · intro f hxn hdn hf
    unfold pluginToInstall
    simp only [GetLocalPlugin_of_find_none key x hxn, GetLocalPlugin_of_find_none key d hdn,
      GetLocalPlugin_of_find_some key u f hf]
    rw [if_neg (by simp), if_neg (by simp), if_pos (hne u f hu hf)]
  · intro readDir kibanaPlugin
    obtain ⟨p, hp, hsel, hall⟩ := installPlugins_handed kibanaPlugin gs
      (ReadLocalPlugins (readDir gs.XPack.StagingLocation))
      (ReadLocalPlugins (readDir gs.KibanaPlugins.StagingLocation))
      (ReadLocalPlugins (readDir (gs.Stager.BuildDir ++ "/plugins/")))
      (gs.PluginsToInstall.map Prod.fst) []
    exact ⟨p, hp, hall, by rw [← List.nil_append (List.map _ p), ← hsel]; rfl⟩

/-- C16, witness: only the `kibana-plugins` bundle and the directory of the user
hold an archive of `analytics-plugin`; the first one of the bundle is chosen. -/
theorem plugin_source_priority_witness :
    pluginToInstall buildWithPlugins "analytics-plugin" ["x-pack-6.2.2.zip"]
        ["other-1.0.zip", "analytics-plugin-1.0.zip", "analytics-plugin-2.0.zip"]
        ["analytics-plugin-user.zip"] =
      "/tmp/deps/0/kibana-plugins-6.2.2/analytics-plugin-1.0.zip" ∧
    (InstallKibanaPlugins pluginDirectories pluginInstallerOk buildWithPlugins).1 =
      ["file:///tmp/deps/0/kibana-plugins-6.2.2/analytics-plugin-1.0.zip"] :=
  ⟨(plugin_source_priority buildWithPlugins "analytics-plugin" ["x-pack-6.2.2.zip"]
      ["other-1.0.zip", "analytics-plugin-1.0.zip", "analytics-plugin-2.0.zip"]
      ["analytics-plugin-user.zip"] (by decide) (by decide) (by decide)).2.1
      "analytics-plugin-1.0.zip" (by decide) (by decide),
    by decide⟩

/-- C17, counterexample: no directory can be read and the plugin is asked for
by the name `analytics.zip`; the source handed to the plugin installer is
`file://analytics.zip`, not the bare name. -/
theorem zip_name_handed_as_file_uri :
    buildWithZipName.PluginsToInstall.map Prod.fst = ["analytics.zip"] ∧
    pluginToInstall buildWithZipName "analytics.zip" [] [] [] = "analytics.zip" ∧
    (InstallKibanaPlugins noDirectories pluginInstallerOk buildWithZipName).2 = none ∧
    (InstallKibanaPlugins noDirectories pluginInstallerOk buildWithZipName).1 =
      ["file://analytics.zip"] ∧
    installerSource "analytics.zip" ≠ "analytics.zip" := by
  decide

/-- C17, as amended: for every plugin name for which no file name of any of the
three listings starts with that name, a directory that cannot be opened
counting as empty, the source chosen is the bare plugin name; it is handed to
the plugin installer as it is, unless it ends in `.zip` and starts with neither
`http://` nor `https://`, in which case `file://` is put before it. -/
theorem unmatched_plugin_uses_name (gs : Supplier) (key : String) (x d u : List String)
    (hx : ∀ n ∈ x, HasPrefix n key = false) (hd : ∀ n ∈ d, HasPrefix n key = false)
    (hu : ∀ n ∈ u, HasPrefix n key = false) :
    pluginToInstall gs key x d u = key ∧
    ReadLocalPlugins none = [] ∧
    (HasSuffix key ".zip" = false ∨ HasPrefix key "http://" = true ∨
        HasPrefix key "https://" = true →
      installerSource (pluginToInstall gs key x d u) = key) ∧
    (HasSuffix key ".zip" = true → HasPrefix key "http://" = false →
        HasPrefix key "https://" = false →
      installerSource (pluginToInstall gs key x d u) = "file://" ++ key) := by
  have hsel : pluginToInstall gs key x d u = key := by
    unfold pluginToInstall
    simp only [GetLocalPlugin_of_find_none key x (find_none_of_no_match key x hx),
      GetLocalPlugin_of_find_none key d (find_none_of_no_match key d hd),
      GetLocalPlugin_of_find_none key u (find_none_of_no_match key u hu)]
    simp
  refine ⟨hsel, rfl, ?_, ?_⟩
  · intro h
    rw [hsel]
    unfold installerSource
    rcases h with h | h | h
    · simp [h]
    · simp [h]
    · simp [h]
  · intro h1 h2 h3
    rw [hsel]
    unfold installerSource
    simp [h1, h2, h3]

/-- C17, witness of the amended statement: the plugin `analytics-plugin`, with
nothing but the `x-pack` archive in the listings, is installed by its name. -/
theorem unmatched_plugin_uses_name_witness :
    installerSource (pluginToInstall buildWithPlugins "analytics-plugin"
      ["x-pack-6.2.2.zip"] [] []) = "analytics-plugin" :=
  (unmatched_plugin_uses_name buildWithPlugins "analytics-plugin" ["x-pack-6.2.2.zip"] [] []
    (by decide) (by decide) (by decide)).2.2.1 (Or.inl (by decide))

theorem installerSource_followsSourceRule (chosen : String) :
    followsSourceRule chosen (installerSource chosen) := by
  unfold followsSourceRule installerSource
  refine ⟨?_, ?_, ?_⟩
  · intro h1 h2 h3
    simp [h1, h2, h3]
  · intro h
    rcases h with h | h
    · simp [h]
    · simp [h]
  · intro h
    simp [h]

/-- The run of the loop of `InstallKibanaPlugins`: the plugins are processed in
order up to the first one whose installation fails; for each plugin processed
the source chosen for it, rewritten by `installerSource`, is handed to the
plugin installer, also for the one whose installation fails. -/
theorem installPlugins_run (kibanaPlugin : String → Option String) (gs : Supplier)
    (x d u keys handed : List String) :
    ∃ processed rest, keys = processed ++ rest ∧
      (installPlugins kibanaPlugin gs x d u keys handed).1 =
        handed ++ processed.map (fun key => installerSource (pluginToInstall gs key x d u)) ∧
      ((installPlugins kibanaPlugin gs x d u keys handed).2 = none →
        rest = [] ∧
        ∀ key ∈ processed, kibanaPlugin (installerSource (pluginToInstall gs key x d u)) = none) ∧
      (∀ err, (installPlugins kibanaPlugin gs x d u keys handed).2 = some err →
        ∃ init last, processed = init ++ [last] ∧
          kibanaPlugin (installerSource (pluginToInstall gs last x d u)) = some err ∧
          ∀ key ∈ init,
            kibanaPlugin (installerSource (pluginToInstall gs key x d u)) = none) := by
  induction keys generalizing handed with
  | nil =>
    refine ⟨[], [], rfl, by simp [installPlugins], ?_, ?_⟩
    · intro _
      exact ⟨rfl, fun key hkey => absurd hkey (List.not_mem_nil key)⟩
    · intro err herr
      simp [installPlugins] at herr
  | cons key keys1 ih =>
    unfold installPlugins
    simp only
    cases hk : kibanaPlugin (installerSource (pluginToInstall gs key x d u)) with
    | some err0 =>
      refine ⟨[key], keys1, rfl, by simp, ?_, ?_⟩
      · intro hnone
        simp at hnone
      · intro err herr
        simp only [Option.some.injEq] at herr
        refine ⟨[], key, rfl, ?_, fun k hkmem => absurd hkmem (List.not_mem_nil k)⟩
        rw [hk, herr]
    | none =>
      obtain ⟨p, r, hsplit, hsel, hok, hfail⟩ :=
        ih (handed ++ [installerSource (pluginToInstall gs key x d u)])
      refine ⟨key :: p, r, by rw [hsplit]; rfl, ?_, ?_, ?_⟩
      · simp only
        rw [hsel]
        simp
      · intro hnone
        simp only at hnone
        obtain ⟨hr, hall⟩ := hok hnone
        refine ⟨hr, ?_⟩
        intro k hkmem
        rcases List.mem_cons.mp hkmem with h | h
        · rw [h]
          exact hk
        · exact hall k h
      · intro err herr
        simp only at herr
        obtain ⟨init, last, hp, hlast, hinit⟩ := hfail err herr
        refine ⟨key :: init, last, by rw [hp]; rfl, hlast, ?_⟩
        intro k hkmem
        rcases List.mem_cons.mp hkmem with h | h
        · rw [h]
          exact hk
        · exact hinit k h

/-- C18: in every run of `InstallKibanaPlugins` the plugins to install are
processed in order, all of them when the run succeeds, and up to the first one
whose installation fails otherwise; for each plugin processed, that one
included, one source is handed to the plugin installer, and with `s` the source
chosen for the plugin it is `file://` followed by `s` when `s` ends in `.zip`
and starts with neither `http://` nor `https://`, and `s` itself when `s` starts
with `http://` or `https://` or does not end in `.zip`. -/
theorem installer_source_rule (readDir : String → Option (List String))
    (kibanaPlugin : String → Option String) (gs : Supplier) :
    ∃ processed rest, gs.PluginsToInstall.map Prod.fst = processed ++ rest ∧
      List.Forall₂
        (fun key handed =>
          followsSourceRule
            (pluginToInstall gs key
              (ReadLocalPlugins (readDir gs.XPack.StagingLocation))
              (ReadLocalPlugins (readDir gs.KibanaPlugins.StagingLocation))
              (ReadLocalPlugins (readDir (gs.Stager.BuildDir ++ "/plugins/"))))
            handed)
        processed (InstallKibanaPlugins readDir kibanaPlugin gs).1 ∧
      ((InstallKibanaPlugins readDir kibanaPlugin gs).2 = none →
        rest = [] ∧
        ∀ handed ∈ (InstallKibanaPlugins readDir kibanaPlugin gs).1,
          kibanaPlugin handed = none) ∧
      (∀ err, (InstallKibanaPlugins readDir kibanaPlugin gs).2 = some err →
        ∃ init last, (InstallKibanaPlugins readDir kibanaPlugin gs).1 = init ++ [last] ∧
          kibanaPlugin last = some err ∧ ∀ handed ∈ init, kibanaPlugin handed = none) := by
  obtain ⟨p, r, hsplit, hsel, hok, hfail⟩ := installPlugins_run kibanaPlugin gs
    (ReadLocalPlugins (readDir gs.XPack.StagingLocation))
    (ReadLocalPlugins (readDir gs.KibanaPlugins.StagingLocation))
    (ReadLocalPlugins (readDir (gs.Stager.BuildDir ++ "/plugins/")))
    (gs.PluginsToInstall.map Prod.fst) []
  have hhanded : (InstallKibanaPlugins readDir kibanaPlugin gs).1 =
      p.map (fun key => installerSource (pluginToInstall gs key
        (ReadLocalPlugins (readDir gs.XPack.StagingLocation))
        (ReadLocalPlugins (readDir gs.KibanaPlugins.StagingLocation))
        (ReadLocalPlugins (readDir (gs.Stager.BuildDir ++ "/plugins/"))))) := by
    rw [← List.nil_append (List.map _ p), ← hsel]
    rfl
  refine ⟨p, r, hsplit, ?_, ?_, ?_⟩
  · rw [hhanded, List.forall₂_map_right_iff]
    exact List.forall₂_same.mpr (fun key _ => installerSource_followsSourceRule _)
  · intro hnone
    obtain ⟨hr, hall⟩ := hok hnone
    refine ⟨hr, ?_⟩
    intro handed hmem
    rw [hhanded] at hmem
    obtain ⟨key, hkey, hkh⟩ := List.mem_map.mp hmem
    rw [← hkh]
    exact hall key hkey
  · intro err herr
    obtain ⟨init, last, hp, hlast, hinit⟩ := hfail err herr
    refine ⟨init.map (fun key => installerSource (pluginToInstall gs key
        (ReadLocalPlugins (readDir gs.XPack.StagingLocation))
        (ReadLocalPlugins (readDir gs.KibanaPlugins.StagingLocation))
        (ReadLocalPlugins (readDir (gs.Stager.BuildDir ++ "/plugins/"))))),
      installerSource (pluginToInstall gs last
        (ReadLocalPlugins (readDir gs.XPack.StagingLocation))
        (ReadLocalPlugins (readDir gs.KibanaPlugins.StagingLocation))
        (ReadLocalPlugins (readDir (gs.Stager.BuildDir ++ "/plugins/")))), ?_, hlast, ?_⟩
    · rw [hhanded, hp, List.map_append]
      rfl
    · intro handed hmem
      obtain ⟨key, hkey, hkh⟩ := List.mem_map.mp hmem
      rw [← hkh]
      exact hinit key hkey

/-- C18, witness: two runs for the three plugins of `buildWithThreePlugins`.
With an installer that succeeds, the local archive is handed over with `file://`
in front, the address and the bare name as they are.  With an installer
without network the run fails on the address, which has been handed over, and
the third plugin is not reached. -/
theorem installer_source_rule_witness :
    InstallKibanaPlugins pluginDirectories pluginInstallerOk buildWithThreePlugins =
      (["file:///tmp/deps/0/kibana-plugins-6.2.2/analytics-plugin-1.0.zip",
        "https://example.org/reports.zip", "logtrail"], none) ∧
    InstallKibanaPlugins pluginDirectories pluginInstallerOffline buildWithThreePlugins =
      (["file:///tmp/deps/0/kibana-plugins-6.2.2/analytics-plugin-1.0.zip",
        "https://example.org/reports.zip"], some "exit status 70") ∧
    ∃ processed rest,
      buildWithThreePlugins.PluginsToInstall.map Prod.fst = processed ++ rest ∧
      List.Forall₂
        (fun key handed =>
          followsSourceRule
            (pluginToInstall buildWithThreePlugins key
              (ReadLocalPlugins (pluginDirectories buildWithThreePlugins.XPack.StagingLocation))
              (ReadLocalPlugins
                (pluginDirectories buildWithThreePlugins.KibanaPlugins.StagingLocation))
              (ReadLocalPlugins
                (pluginDirectories (buildWithThreePlugins.Stager.BuildDir ++ "/plugins/"))))
            handed)
        processed
        (InstallKibanaPlugins pluginDirectories pluginInstallerOffline
          buildWithThreePlugins).1 :=
  ⟨by decide, by decide,
    (installer_source_rule pluginDirectories pluginInstallerOffline
      buildWithThreePlugins).imp
      (fun _ h => h.imp (fun _ h1 => ⟨h1.1, h1.2.1⟩))⟩

end Kibana
